import Mathlib

/-!
Shallow embedding of the RFSN kernel (rfsn_kernel). Python floats are
modelled as rationals (ℚ); Python dicts iterated in sorted key order are
modelled as association lists carried in that order; Python code paths that
can raise an exception (out-of-range indexing) are modelled with `Option`,
where `none` stands for an uncaught exception. Definitions follow the
source files controller_types.py, safety.py, arbiter.py, controller.py,
actuators.py, hold_policy.py, aggregator.py, monitors.py,
safety_injector.py, ledger.py, types.py and gate.py.
-/

set_option maxHeartbeats 1000000

/-- controller_types.ControlSpace: str-valued enum. -/
inductive ControlSpace where
  | ARM
  | LEGS
  | BASE
  | WHOLE_BODY
deriving DecidableEq, Repr

/-- The `.value` string of a ControlSpace member. -/
def spaceValue : ControlSpace → String
  | .ARM => "arm"
  | .LEGS => "legs"
  | .BASE => "base"
  | .WHOLE_BODY => "whole_body"

/-- The four spaces sorted by their `.value` string, the order in which
`sorted(by_space.items(), key=lambda kv: kv[0].value)` visits them. -/
def sortedSpaces : List ControlSpace :=
  [ControlSpace.ARM, ControlSpace.BASE, ControlSpace.LEGS, ControlSpace.WHOLE_BODY]

/-- controller_types.CommandKind. -/
inductive CommandKind where
  | JOINT_POSITION
  | JOINT_VELOCITY
  | JOINT_TORQUE
deriving DecidableEq, Repr

/-- controller_types.MaskedCommand. The Python constructor enforces
`len(dof_mask) == len(values)`, no duplicate indices and no negative
index; indices are `Nat` here and the first two constraints appear as
hypotheses where a claim needs them. -/
structure MaskedCommand where
  space : ControlSpace
  kind : CommandKind
  dof_mask : List Nat
  values : List ℚ
  source : String
deriving DecidableEq, Repr

/-- Well-formedness enforced by `MaskedCommand.__post_init__`. -/
def MaskedCommand.WF (c : MaskedCommand) : Prop :=
  c.dof_mask.length = c.values.length ∧ c.dof_mask.Nodup

/-- Lookup in an association list with string keys (`dict.get`). -/
def dictGet (m : List (String × String)) (k : String) : Option String :=
  match m with
  | [] => none
  | (k0, v0) :: rest => if k0 = k then some v0 else dictGet rest k

/-- controller_types.CapabilityLease. `primary_authority` is an optional
dict from space-name string to skill name (None in Python is `none`). -/
structure CapabilityLease where
  seq : Int
  lease_id : String
  issued_t : ℚ
  expiry_t : ℚ
  q_min : List ℚ
  q_max : List ℚ
  qd_abs_max : List ℚ
  tau_abs_max : Option (List ℚ)
  primary_authority : Option (List (String × String))
deriving DecidableEq, Repr

/-- safety.SafetyResult. -/
structure SafetyResult where
  ok : Bool
  reason : String
  code : String
deriving DecidableEq, Repr

/-- safety.lease_active. -/
def lease_active (lease : CapabilityLease) (now_t : ℚ) : Bool :=
  decide (lease.issued_t ≤ now_t ∧ now_t ≤ lease.expiry_t)

/-- Guarded list indexing: every use site has already established that the
index is in range, as the corresponding Python indexing assumes. -/
def getQ (xs : List ℚ) (i : Nat) : ℚ :=
  xs.getD i 0

/-- Python `max(a, b)` on rationals, written with `if` so that it reduces
in the kernel. -/
def maxQ (a b : ℚ) : ℚ :=
  if a ≤ b then b else a

/-- Python `min(a, b)` on rationals. -/
def minQ (a b : ℚ) : ℚ :=
  if a ≤ b then a else b

/-- `min(max(v, lo), hi)` as written in safety.py. -/
def clampQ (v lo hi : ℚ) : ℚ :=
  minQ (maxQ v lo) hi

/-- safety.clamp_masked_command_to_lease. The Python `CommandKind` is a
closed enum, so the final "Unknown command kind" branch is unreachable and
the match here is exhaustive. -/
def clamp_masked_command_to_lease (cmd : MaskedCommand) (lease : CapabilityLease) :
    Option MaskedCommand × SafetyResult :=
  if lease.q_max.length ≠ lease.q_min.length ∨ lease.qd_abs_max.length ≠ lease.q_min.length then
    (none, ⟨false, "Lease vectors inconsistent", "LEASE_SHAPE"⟩)
  else if cmd.dof_mask.any (fun i => decide (lease.q_min.length ≤ i)) then
    (none, ⟨false, "DOF index out of range", "DOF_OOB"⟩)
  else
    match cmd.kind with
    | CommandKind.JOINT_POSITION =>
        (some ⟨cmd.space, cmd.kind, cmd.dof_mask,
          (cmd.dof_mask.zip cmd.values).map
            (fun p => clampQ p.2 (getQ lease.q_min p.1) (getQ lease.q_max p.1)),
          cmd.source⟩, ⟨true, "OK", "OK"⟩)
    | CommandKind.JOINT_VELOCITY =>
        (some ⟨cmd.space, cmd.kind, cmd.dof_mask,
          (cmd.dof_mask.zip cmd.values).map
            (fun p => clampQ p.2 (-(getQ lease.qd_abs_max p.1)) (getQ lease.qd_abs_max p.1)),
          cmd.source⟩, ⟨true, "OK", "OK"⟩)
    | CommandKind.JOINT_TORQUE =>
        match lease.tau_abs_max with
        | none => (none, ⟨false, "Torque not permitted by lease", "TORQUE_NOT_ALLOWED"⟩)
        | some tau =>
            if tau.length ≠ lease.q_min.length then
              (none, ⟨false, "tau_abs_max shape mismatch", "LEASE_SHAPE"⟩)
            else
              (some ⟨cmd.space, cmd.kind, cmd.dof_mask,
                (cmd.dof_mask.zip cmd.values).map
                  (fun p => clampQ p.2 (-(getQ tau p.1)) (getQ tau p.1)),
                cmd.source⟩, ⟨true, "OK", "OK"⟩)

/-- types.Phase. -/
inductive Phase where
  | IDLE
  | APPROACH
  | ALIGN
  | GRASP
  | LIFT
  | RETREAT
  | RECOVERY
  | TERMINATED
deriving DecidableEq, Repr

/-- types.PerceptionTrust. -/
inductive PerceptionTrust where
  | VALID
  | DEGRADED
  | UNTRUSTED
deriving DecidableEq, Repr

/-- types.Envelope. `env_scope_pre` is the field `env_scope_prefix` of the
source, renamed here. End-effector corners are (x, y, z) triples. -/
structure Envelope where
  name : String
  env_scope_pre : String
  max_snapshot_skew_s : ℚ
  max_state_staleness_s : ℚ
  q_min : List ℚ
  q_max : List ℚ
  qd_abs_max : List ℚ
  ee_xyz_min : ℚ × ℚ × ℚ
  ee_xyz_max : ℚ × ℚ × ℚ
  allow_new_commits_when_degraded : Bool
  allow_new_commits_when_untrusted : Bool
  allowed_phase_edges : List (Phase × Phase)
  primary_authority : List (String × String)
  q_acc_abs_max : Option (List ℚ)
  exclusion_zones : Option (List ((ℚ × ℚ × ℚ) × (ℚ × ℚ × ℚ)))
deriving DecidableEq, Repr

/-- `prev_map.get(joint_idx)` where `prev_map = {idx: val for idx, val in
zip(prev_cmd.dof_mask, prev_cmd.values)}`. A Python dict comprehension
keeps the last value on duplicate keys, hence the reversed search. -/
def prevMapGet (prev : MaskedCommand) (idx : Nat) : Option ℚ :=
  ((prev.dof_mask.zip prev.values).reverse.find? (fun p => decide (p.1 = idx))).map (fun p => p.2)

/-- Evaluate `f` on each element in order, failing if any evaluation
fails; models a Python loop whose body may raise. -/
def mapOption {α β : Type} (f : α → Option β) : List α → Option (List β)
  | [] => some []
  | a :: l =>
      match f a, mapOption f l with
      | some b, some bs => some (b :: bs)
      | _, _ => none

/-- safety.clamp_dynamics. The outer `Option` is `none` exactly when the
Python code raises (the unguarded `envelope.q_acc_abs_max[joint_idx]`
access with an out-of-range masked index). -/
def clamp_dynamics (cmd : MaskedCommand) (prev_cmd : Option MaskedCommand)
    (envelope : Envelope) (dt : ℚ) : Option (Option MaskedCommand × SafetyResult) :=
  match envelope.q_acc_abs_max with
  | none => some (some cmd, ⟨true, "No dynamics limits", "OK"⟩)
  | some acc =>
      if dt ≤ mkRat 1 10000 then
        some (none, ⟨false, "Invalid time delta", "BAD_DT"⟩)
      else
        match prev_cmd with
        | none => some (some cmd, ⟨true, "First tick", "OK"⟩)
        | some prev =>
            if cmd.kind ≠ prev.kind then
              some (some cmd, ⟨true, "Mode switch reset", "OK"⟩)
            else if cmd.kind = CommandKind.JOINT_VELOCITY then
              match mapOption (fun p =>
                  match prevMapGet prev p.1 with
                  | none => some p.2
                  | some prev_val =>
                      (acc.get? p.1).map (fun acc_limit =>
                        maxQ (prev_val - acc_limit * dt)
                          (minQ p.2 (prev_val + acc_limit * dt))))
                (cmd.dof_mask.zip cmd.values) with
              | none => none
              | some new_values =>
                  some (some ⟨cmd.space, cmd.kind, cmd.dof_mask, new_values, cmd.source⟩,
                    ⟨true, "Dynamics clamped", "OK"⟩)
            else
              some (some cmd, ⟨true, "Dynamics skipped", "OK"⟩)

/-- The tick time delta of controller.step_controller_multi, steps 2 of
the source: `dt = now_t - last_tick_t`, then `if dt <= 0.0: dt = 0.001`,
then `if dt > 0.1: dt = 0.1`. -/
def dtStep (now_t last_tick_t : ℚ) : ℚ :=
  if now_t - last_tick_t ≤ 0 then mkRat 1 1000
  else if mkRat 1 10 < now_t - last_tick_t then mkRat 1 10
  else now_t - last_tick_t

/-- arbiter.ArbiterDecision. `selected_by_space` is the insertion-ordered
dict, which the source fills in sorted space order. -/
structure ArbiterDecision where
  ok : Bool
  reason : String
  selected_by_space : List (ControlSpace × MaskedCommand)
deriving DecidableEq, Repr

/-- `by_space[space]`: the proposals for one space (`by_space` groups
`proposals` by `p.space`, preserving order). -/
def proposalsIn (proposals : List MaskedCommand) (space : ControlSpace) :
    List MaskedCommand :=
  proposals.filter (fun p => decide (p.space = space))

/-- The safety-sourced proposals for one space. -/
def safetyIn (proposals : List MaskedCommand) (space : ControlSpace) :
    List MaskedCommand :=
  (proposalsIn proposals space).filter (fun p => decide (p.source = "safety"))

/-- The proposals for one space whose source is the given primary
authority. -/
def eligibleIn (proposals : List MaskedCommand) (space : ControlSpace)
    (primary : String) : List MaskedCommand :=
  (proposalsIn proposals space).filter (fun p => decide (p.source = primary))

/-- One iteration of the arbitration loop of arbiter.arbitrate_multi for
one space: `Except.error` is the early `return ArbiterDecision(False, …)`,
`Except.ok none` means the space is skipped or left on HOLD, and
`Except.ok (some p)` selects `p`. A space with no proposals is not in
`by_space` and is skipped. -/
def arbSpace (pa : List (String × String)) (proposals : List MaskedCommand)
    (space : ControlSpace) : Except String (Option MaskedCommand) :=
  match proposalsIn proposals space with
  | [] => Except.ok none
  | ps =>
      match ps.filter (fun p => decide (p.source = "safety")) with
      | [] =>
          match dictGet pa (spaceValue space) with
          | none => Except.error ("No primary authority declared for " ++ spaceValue space)
          | some primary =>
              match ps.filter (fun p => decide (p.source = primary)) with
              | [] => Except.ok none
              | [p] => Except.ok (some p)
              | _ => Except.error ("Ambiguous primary proposals in " ++ spaceValue space)
      | [p] => Except.ok (some p)
      | _ => Except.error ("Ambiguous safety proposals in " ++ spaceValue space)

/-- The arbitration loop over the spaces in sorted order, accumulating
the selected commands in that order. -/
def arbAux (pa : List (String × String)) (proposals : List MaskedCommand) :
    List ControlSpace → Except String (List (ControlSpace × MaskedCommand))
  | [] => Except.ok []
  | s :: rest =>
      match arbSpace pa proposals s with
      | Except.error e => Except.error e
      | Except.ok none => arbAux pa proposals rest
      | Except.ok (some p) =>
          match arbAux pa proposals rest with
          | Except.error e => Except.error e
          | Except.ok out => Except.ok ((s, p) :: out)

/-- arbiter.arbitrate_multi. -/
def arbitrate_multi (lease : CapabilityLease) (proposals : List MaskedCommand) :
    ArbiterDecision :=
  match lease.primary_authority with
  | none => ⟨false, "No primary_authority map in lease", []⟩
  | some pa =>
      match arbAux pa proposals sortedSpaces with
      | Except.error e => ⟨false, e, []⟩
      | Except.ok out =>
          if out.isEmpty then ⟨false, "No proposals selected", []⟩
          else ⟨true, "OK", out⟩

/-- controller.ControllerState. -/
structure ControllerState where
  active_lease : Option CapabilityLease
  active_envelope : Option Envelope
  estop : Bool
  last_commands : List (ControlSpace × MaskedCommand)
  last_tick_t : ℚ
deriving DecidableEq, Repr

/-- controller.ControllerOutput. -/
structure ControllerOutput where
  ok : Bool
  reason : String
  final_by_space : List (ControlSpace × MaskedCommand)
deriving DecidableEq, Repr

/-- controller.apply_estop (state mutation modelled functionally). -/
def apply_estop (ctrl : ControllerState) : ControllerState :=
  { ctrl with estop := true, active_lease := none }

/-- controller.clear_estop. -/
def clear_estop (ctrl : ControllerState) : ControllerState :=
  { ctrl with estop := false }

/-- controller.install_lease: returns the Python boolean result together
with the updated state. -/
def install_lease (ctrl : ControllerState) (lease : CapabilityLease) (now_t : ℚ)
    (envelope : Option Envelope) : Bool × ControllerState :=
  if ctrl.estop = true then (false, ctrl)
  else if lease_active lease now_t = false then (false, ctrl)
  else if (match ctrl.active_lease with
           | some cur => decide (lease.seq ≤ cur.seq)
           | none => false) then (false, ctrl)
  else (true, { ctrl with active_lease := some lease, active_envelope := envelope })

/-- `ctrl.last_commands.get(space)`; the keys of `last_commands` are
distinct spaces, so the first match is the dict entry. -/
def lastGet (m : List (ControlSpace × MaskedCommand)) (s : ControlSpace) :
    Option MaskedCommand :=
  (m.find? (fun p => decide (p.1 = s))).map (fun p => p.2)

/-- Step 4 of controller.step_controller_multi: absolute clamp then
dynamics clamp for each selected space, in selection (= sorted) order.
`Except.error` is the early failing return; the outer `none` propagates an
exception raised inside `clamp_dynamics`. -/
def clampSpaces (lease : CapabilityLease) (env : Option Envelope)
    (last_commands : List (ControlSpace × MaskedCommand)) (dt : ℚ) :
    List (ControlSpace × MaskedCommand) →
    Option (Except String (List (ControlSpace × MaskedCommand)))
  | [] => some (Except.ok [])
  | (space, cmd) :: rest =>
      match clamp_masked_command_to_lease cmd lease with
      | (none, sres) =>
          some (Except.error ("Abs Clamp reject " ++ spaceValue space ++ ": " ++ sres.reason))
      | (some clamped_abs, sres) =>
          if sres.ok = false then
            some (Except.error ("Abs Clamp reject " ++ spaceValue space ++ ": " ++ sres.reason))
          else
            match env with
            | some envelope =>
                match clamp_dynamics clamped_abs (lastGet last_commands space) envelope dt with
                | none => none
                | some (none, dres) =>
                    some (Except.error ("Dyn Clamp reject " ++ spaceValue space ++ ": " ++ dres.reason))
                | some (some clamped_dyn, dres) =>
                    if dres.ok = false then
                      some (Except.error ("Dyn Clamp reject " ++ spaceValue space ++ ": " ++ dres.reason))
                    else
                      match clampSpaces lease env last_commands dt rest with
                      | none => none
                      | some (Except.error e) => some (Except.error e)
                      | some (Except.ok out) => some (Except.ok ((space, clamped_dyn) :: out))
            | none =>
                match clampSpaces lease env last_commands dt rest with
                | none => none
                | some (Except.error e) => some (Except.error e)
                | some (Except.ok out) => some (Except.ok ((space, clamped_abs) :: out))

/-- Step 5 of controller.step_controller_multi: the DOF-conflict scan.
Returns the first overlap found (the Python code fails on it) or `none`
when all masks are disjoint. -/
def conflictCheck (used : List Nat) :
    List (ControlSpace × MaskedCommand) → Option (List Nat)
  | [] => none
  | (_, cmd) :: rest =>
      match cmd.dof_mask.filter (fun i => decide (i ∈ used)) with
      | [] => conflictCheck (used ++ cmd.dof_mask) rest
      | overlap => some overlap

/-- controller.step_controller_multi. The outer `Option` is `none` when
the Python code would raise (only possible inside the dynamics clamp). -/
def step_controller_multi (ctrl : ControllerState) (now_t : ℚ)
    (proposals : List MaskedCommand) : Option (ControllerOutput × ControllerState) :=
  if ctrl.estop = true then some (⟨false, "E-STOP active", []⟩, ctrl)
  else
    match ctrl.active_lease with
    | none => some (⟨false, "No active lease", []⟩, ctrl)
    | some lease =>
        if lease_active lease now_t = false then
          some (⟨false, "Lease expired", []⟩, { ctrl with active_lease := none })
        else
          match arbitrate_multi lease proposals with
          | ⟨false, reason, _⟩ =>
              some (⟨false, "Arbiter reject: " ++ reason, []⟩, ctrl)
          | ⟨true, _, selected⟩ =>
              match clampSpaces lease ctrl.active_envelope ctrl.last_commands
                  (dtStep now_t ctrl.last_tick_t) selected with
              | none => none
              | some (Except.error e) => some (⟨false, e, []⟩, ctrl)
              | some (Except.ok final_by_space) =>
                  match conflictCheck [] final_by_space with
                  | some overlap =>
                      some (⟨false, "DOF conflict: "
                        ++ toString (overlap.dedup.insertionSort (fun a b => a ≤ b)), []⟩, ctrl)
                  | none =>
                      some (⟨true, "OK", final_by_space⟩,
                        { ctrl with last_commands := final_by_space, last_tick_t := now_t })

/-- Controller entry points as an event alphabet, for stating temporal
properties about sequences of calls. -/
inductive KEvent where
  | tick (now_t : ℚ) (proposals : List MaskedCommand)
  | install (lease : CapabilityLease) (now_t : ℚ) (envelope : Option Envelope)
  | estopOn
  | estopOff
deriving DecidableEq, Repr

/-- Observable result of one controller entry point. -/
inductive EvOut where
  | tick (out : ControllerOutput)
  | installed (ok : Bool)
  | admin
deriving DecidableEq, Repr

/-- Execute one controller entry point. -/
def execEvent (s : ControllerState) : KEvent → Option (EvOut × ControllerState)
  | KEvent.tick now_t props =>
      (step_controller_multi s now_t props).map (fun r => (EvOut.tick r.1, r.2))
  | KEvent.install lease now_t env =>
      some (EvOut.installed (install_lease s lease now_t env).1,
        (install_lease s lease now_t env).2)
  | KEvent.estopOn => some (EvOut.admin, apply_estop s)
  | KEvent.estopOff => some (EvOut.admin, clear_estop s)

/-- Execute a sequence of controller entry points, collecting outputs. -/
def runEvents (s : ControllerState) : List KEvent → Option (List EvOut × ControllerState)
  | [] => some ([], s)
  | e :: rest =>
      match execEvent s e with
      | none => none
      | some (o, s1) =>
          match runEvents s1 rest with
          | none => none
          | some (os, s2) => some (o :: os, s2)

/-- actuators.ActuatorTargets. -/
structure ActuatorTargets where
  q_des : Option (List ℚ)
  qd_des : Option (List ℚ)
  tau_des : Option (List ℚ)
deriving DecidableEq, Repr

/-- actuators.BuildResult. -/
structure BuildResult where
  ok : Bool
  reason : String
  targets : Option ActuatorTargets
deriving DecidableEq, Repr

/-- hold_policy.HoldPolicy (the unused `_reserved` field is omitted). -/
structure HoldPolicy where
  preferred_hold_kind : List (ControlSpace × CommandKind)
deriving DecidableEq, Repr

/-- `hold_policy.preferred_hold_kind.get(space)`. -/
def holdGet (m : List (ControlSpace × CommandKind)) (s : ControlSpace) :
    Option CommandKind :=
  (m.find? (fun p => decide (p.1 = s))).map (fun p => p.2)

/-- The `.value` string of a CommandKind member. -/
def kindValue : CommandKind → String
  | .JOINT_POSITION => "JOINT_POSITION"
  | .JOINT_VELOCITY => "JOINT_VELOCITY"
  | .JOINT_TORQUE => "JOINT_TORQUE"

/-- Rank of a CommandKind value in the lexicographic order of the value
strings, used for `sorted(k.value for k in kinds_present)`. -/
def kindOrd : CommandKind → Nat
  | .JOINT_POSITION => 0
  | .JOINT_TORQUE => 1
  | .JOINT_VELOCITY => 2

/-- actuators._allowed_kinds_by_space, as the membership test it is used
for. Every `ControlSpace` is a key of the Python dict, so the
"Unknown control space" branch of the builder is unreachable. -/
def allowed_kinds_by_space : ControlSpace → List CommandKind
  | .ARM => [CommandKind.JOINT_POSITION, CommandKind.JOINT_VELOCITY]
  | .LEGS => [CommandKind.JOINT_VELOCITY]
  | .BASE => [CommandKind.JOINT_VELOCITY]
  | .WHOLE_BODY => [CommandKind.JOINT_VELOCITY]

/-- actuators._whole_body_exclusive. -/
def whole_body_exclusive (spaces_present : List ControlSpace) : Bool :=
  decide (ControlSpace.WHOLE_BODY ∈ spaces_present) && decide (1 < spaces_present.length)

/-- actuators._mixed_kinds_allowed. -/
def mixed_kinds_allowed (kinds_present : List CommandKind)
    (allow_safety_torque_stop : Bool) : Bool :=
  if CommandKind.JOINT_TORQUE ∈ kinds_present then
    if kinds_present.length = 1 then true else allow_safety_torque_stop
  else true

/-- The per-command compatibility test of the builder: the matrix entry,
or the safety-torque exemption. -/
def kindAllowed (allow_safety_torque_stop : Bool) (space : ControlSpace)
    (cmd : MaskedCommand) : Bool :=
  decide (cmd.kind ∈ allowed_kinds_by_space space)
  || (allow_safety_torque_stop && decide (cmd.source = "safety")
      && decide (cmd.kind = CommandKind.JOINT_TORQUE))

/-- The inner loop of the builder's commanded-DOF scan over one mask:
bounds check, then duplicate check against the accumulated `commanded`
set (modelled as a list), then insertion. -/
def maskScan (dof_count : Nat) (commanded : List Nat) :
    List Nat → Except String (List Nat)
  | [] => Except.ok commanded
  | i :: is =>
      if dof_count ≤ i then
        Except.error ("DOF index out of range in command: " ++ toString i)
      else if i ∈ commanded then
        Except.error ("DOF overlap detected at index " ++ toString i)
      else maskScan dof_count (commanded ++ [i]) is

/-- The builder's commanded-DOF scan over all selected commands. -/
def commandedScan (dof_count : Nat) (commanded : List Nat) :
    List (ControlSpace × MaskedCommand) → Except String (List Nat)
  | [] => Except.ok commanded
  | (_, cmd) :: rest =>
      match maskScan dof_count commanded cmd.dof_mask with
      | Except.error e => Except.error e
      | Except.ok commanded2 => commandedScan dof_count commanded2 rest

/-- Allocate the vector for a preferred hold kind when not yet allocated
(`if q_des is None: q_des = list(now_q)` and the analogous zero-vector
allocations); the hold values themselves equal the allocation identity,
so writing them is a no-op, as the source comments note. -/
def allocFor (now_q : List ℚ) (dof_count : Nat) (pref : CommandKind)
    (acc : Option (List ℚ) × Option (List ℚ) × Option (List ℚ)) :
    Option (List ℚ) × Option (List ℚ) × Option (List ℚ) :=
  match pref with
  | CommandKind.JOINT_POSITION =>
      (if acc.1 = none then some now_q else acc.1, acc.2.1, acc.2.2)
  | CommandKind.JOINT_VELOCITY =>
      (acc.1, if acc.2.1 = none then some (List.replicate dof_count 0) else acc.2.1, acc.2.2)
  | CommandKind.JOINT_TORQUE =>
      (acc.1, acc.2.1, if acc.2.2 = none then some (List.replicate dof_count 0) else acc.2.2)

/-- The DOF loop of the builder's HOLD pass for one space. The
"Unknown preferred hold kind" branch is unreachable for the closed
`CommandKind` enum. -/
def holdDofs (now_q : List ℚ) (dof_count : Nat) (commanded : List Nat)
    (pref : CommandKind) (acc : Option (List ℚ) × Option (List ℚ) × Option (List ℚ)) :
    List Nat → Except String (Option (List ℚ) × Option (List ℚ) × Option (List ℚ))
  | [] => Except.ok acc
  | i :: is =>
      if dof_count ≤ i then
        Except.error ("DOF index out of range in space_dofs: " ++ toString i)
      else if i ∈ commanded then
        holdDofs now_q dof_count commanded pref acc is
      else holdDofs now_q dof_count commanded pref (allocFor now_q dof_count pref acc) is

/-- The builder's HOLD pass over `space_dofs`. -/
def holdPass (now_q : List ℚ) (dof_count : Nat) (commanded : List Nat)
    (hold_policy : HoldPolicy)
    (acc : Option (List ℚ) × Option (List ℚ) × Option (List ℚ)) :
    List (ControlSpace × List Nat) →
    Except String (Option (List ℚ) × Option (List ℚ) × Option (List ℚ))
  | [] => Except.ok acc
  | (space, dofs) :: rest =>
      match holdGet hold_policy.preferred_hold_kind space with
      | none => holdPass now_q dof_count commanded hold_policy acc rest
      | some pref =>
          match holdDofs now_q dof_count commanded pref acc dofs with
          | Except.error e => Except.error e
          | Except.ok acc2 => holdPass now_q dof_count commanded hold_policy acc2 rest

/-- One write of the builder's command pass: masked value `v` into the
vector for the command's kind at index `i` (index already validated by
the commanded scan). -/
def writeOne (now_q : List ℚ) (dof_count : Nat) (kinds_count : Nat)
    (allow_safety_torque_stop : Bool) (kind : CommandKind) (source : String)
    (acc : Option (List ℚ) × Option (List ℚ) × Option (List ℚ)) (i : Nat) (v : ℚ) :
    Except String (Option (List ℚ) × Option (List ℚ) × Option (List ℚ)) :=
  match kind with
  | CommandKind.JOINT_POSITION =>
      Except.ok (some ((match acc.1 with | none => now_q | some q => q).set i v),
        acc.2.1, acc.2.2)
  | CommandKind.JOINT_VELOCITY =>
      Except.ok (acc.1,
        some ((match acc.2.1 with | none => List.replicate dof_count 0 | some qd => qd).set i v),
        acc.2.2)
  | CommandKind.JOINT_TORQUE =>
      if allow_safety_torque_stop && decide (source ≠ "safety") && decide (1 < kinds_count) then
        Except.error "Torque mixed but not safety-sourced"
      else
        Except.ok (acc.1, acc.2.1,
          some ((match acc.2.2 with | none => List.replicate dof_count 0 | some tau => tau).set i v))

/-- The masked-value loop of the command pass for one command. -/
def writeCmd (now_q : List ℚ) (dof_count : Nat) (kinds_count : Nat)
    (allow_safety_torque_stop : Bool) (kind : CommandKind) (source : String)
    (acc : Option (List ℚ) × Option (List ℚ) × Option (List ℚ)) :
    List (Nat × ℚ) → Except String (Option (List ℚ) × Option (List ℚ) × Option (List ℚ))
  | [] => Except.ok acc
  | (i, v) :: ps =>
      match writeOne now_q dof_count kinds_count allow_safety_torque_stop kind source acc i v with
      | Except.error e => Except.error e
      | Except.ok acc2 =>
          writeCmd now_q dof_count kinds_count allow_safety_torque_stop kind source acc2 ps

/-- The builder's command pass over the selected commands in sorted space
order. -/
def writePass (now_q : List ℚ) (dof_count : Nat) (kinds_count : Nat)
    (allow_safety_torque_stop : Bool)
    (acc : Option (List ℚ) × Option (List ℚ) × Option (List ℚ)) :
    List (ControlSpace × MaskedCommand) →
    Except String (Option (List ℚ) × Option (List ℚ) × Option (List ℚ))
  | [] => Except.ok acc
  | (_, cmd) :: rest =>
      match writeCmd now_q dof_count kinds_count allow_safety_torque_stop cmd.kind cmd.source
          acc (cmd.dof_mask.zip cmd.values) with
      | Except.error e => Except.error e
      | Except.ok acc2 =>
          writePass now_q dof_count kinds_count allow_safety_torque_stop acc2 rest

/-- `sorted(final_by_space.items(), key=lambda kv: kv[0].value)`: a stable
sort of the dict items by space value. -/
def sortPairsBySpace (l : List (ControlSpace × MaskedCommand)) :
    List (ControlSpace × MaskedCommand) :=
  (sortedSpaces.map (fun s => l.filter (fun p => decide (p.1 = s)))).join

/-- actuators.build_actuator_targets_v2. Python's `dof_count` is an int
checked with `<= 0`; it is a `Nat` here, so the check is `= 0`. -/
def build_actuator_targets_v2 (final_by_space : List (ControlSpace × MaskedCommand))
    (now_q : List ℚ) (dof_count : Nat) (space_dofs : List (ControlSpace × List Nat))
    (hold_policy : HoldPolicy) (allow_safety_torque_stop : Bool) : BuildResult :=
  if dof_count = 0 then ⟨false, "Invalid dof_count", none⟩
  else if now_q.length ≠ dof_count then ⟨false, "now_q length != dof_count", none⟩
  else if final_by_space.isEmpty then ⟨false, "No commands to build", none⟩
  else if whole_body_exclusive ((final_by_space.map (fun p => p.1)).dedup) then
    ⟨false, "WHOLE_BODY is exclusive; other spaces present", none⟩
  else
    match final_by_space.find? (fun p => ! kindAllowed allow_safety_torque_stop p.1 p.2) with
    | some p =>
        ⟨false, "Kind " ++ kindValue p.2.kind ++ " not allowed in " ++ spaceValue p.1, none⟩
    | none =>
        if ! mixed_kinds_allowed ((final_by_space.map (fun p => p.2.kind)).dedup)
            allow_safety_torque_stop then
          ⟨false, "Disallowed mixed kinds: "
            ++ toString ((((final_by_space.map (fun p => p.2.kind)).dedup).insertionSort
                (fun a b => kindOrd a ≤ kindOrd b)).map kindValue), none⟩
        else
          match commandedScan dof_count [] final_by_space with
          | Except.error e => ⟨false, e, none⟩
          | Except.ok commanded =>
              match holdPass now_q dof_count commanded hold_policy
                  (if CommandKind.JOINT_POSITION ∈ (final_by_space.map (fun p => p.2.kind)).dedup
                     then some now_q else none,
                   if CommandKind.JOINT_VELOCITY ∈ (final_by_space.map (fun p => p.2.kind)).dedup
                     then some (List.replicate dof_count 0) else none,
                   if CommandKind.JOINT_TORQUE ∈ (final_by_space.map (fun p => p.2.kind)).dedup
                     then some (List.replicate dof_count 0) else none)
                  space_dofs with
              | Except.error e => ⟨false, e, none⟩
              | Except.ok acc2 =>
                  match writePass now_q dof_count
                      ((final_by_space.map (fun p => p.2.kind)).dedup).length
                      allow_safety_torque_stop acc2 (sortPairsBySpace final_by_space) with
                  | Except.error e => ⟨false, e, none⟩
                  | Except.ok acc3 => ⟨true, "OK", some ⟨acc3.1, acc3.2.1, acc3.2.2⟩⟩

/-- monitors.SafetyLevel. -/
inductive SafetyLevel where
  | NONE
  | WARN
  | STOP
  | E_STOP
deriving DecidableEq, Repr

/-- monitors.SafetyEvent. -/
structure SafetyEvent where
  level : SafetyLevel
  reason : String
  affected_spaces : Option (List (String × String))
deriving DecidableEq, Repr

/-- The severity priority map of aggregator.MonitorRegistry.aggregate. -/
def severity : SafetyLevel → Nat
  | SafetyLevel.NONE => 0
  | SafetyLevel.WARN => 1
  | SafetyLevel.STOP => 2
  | SafetyLevel.E_STOP => 3

/-- One dict update of the affected-spaces merge: existing space keys
concatenate `";src:reason"`, new keys append `"src:reason"`. -/
def amSet (am : List (String × String)) (space : String) (src : String)
    (reason : String) : List (String × String) :=
  if (am.find? (fun p => decide (p.1 = space))).isSome then
    am.map (fun p => if p.1 = space then (p.1, p.2 ++ ";" ++ src ++ ":" ++ reason) else p)
  else am ++ [(space, src ++ ":" ++ reason)]

/-- The affected-spaces merge for one event (`if evt.affected_spaces and
severity[evt.level] >= severity[STOP]`; an empty dict is falsy). -/
def amUpd (am : List (String × String)) (src : String) (evt : SafetyEvent) :
    List (String × String) :=
  match evt.affected_spaces with
  | none => am
  | some asp =>
      if asp ≠ [] ∧ severity SafetyLevel.STOP ≤ severity evt.level then
        asp.foldl (fun m pr => amSet m pr.1 src pr.2) am
      else am

/-- The loop of aggregator.MonitorRegistry.aggregate over
`sorted(active_events.items())`, carried as
(worst_level, worst_reasons, affected_map). -/
def aggAux (state : SafetyLevel × List String × List (String × String)) :
    List (String × SafetyEvent) → SafetyLevel × List String × List (String × String)
  | [] => state
  | (src, evt) :: rest =>
      aggAux
        (if severity state.1 < severity evt.level then
          (evt.level, [src ++ ":" ++ evt.reason], amUpd state.2.2 src evt)
        else if severity evt.level = severity state.1 ∧ evt.level ≠ SafetyLevel.NONE then
          (state.1, state.2.1 ++ [src ++ ":" ++ evt.reason], amUpd state.2.2 src evt)
        else (state.1, state.2.1, amUpd state.2.2 src evt)) rest

/-- aggregator.MonitorRegistry.aggregate. The input list models
`sorted(self.active_events.items())`: the dict's items in ascending key
order. -/
def aggregate (active_events : List (String × SafetyEvent)) : SafetyEvent :=
  if active_events.isEmpty then ⟨SafetyLevel.NONE, "no_monitors", none⟩
  else
    match aggAux (SafetyLevel.NONE, [], []) active_events with
    | (w, rs, am) =>
        ⟨w, String.intercalate " | " rs, if am.isEmpty then none else some am⟩

/-- The worst level of a list of events, starting from `w` (the running
`worst_level` of the source loop). -/
def worstFrom (w : SafetyLevel) (l : List (String × SafetyEvent)) : SafetyLevel :=
  l.foldl (fun acc e => if severity acc < severity e.2.level then e.2.level else acc) w

/-- The `"src:reason"` tags of the events holding a given level, in list
order. -/
def tagsAt (lvl : SafetyLevel) (l : List (String × SafetyEvent)) : List String :=
  (l.filter (fun e => decide (e.2.level = lvl))).map (fun e => e.1 ++ ":" ++ e.2.reason)

/-- safety_injector.SafetyInjectorConfig (Python defaults:
stop_kind = JOINT_VELOCITY, damping_gain = 0.0, global_stop = True). -/
structure SafetyInjectorConfig where
  stop_kind : CommandKind
  damping_gain : ℚ
  global_stop : Bool
deriving DecidableEq, Repr

/-- `name_to_space = {s.value: s for s in space_dofs.keys()}` followed by
`.get(k)`; the keys are distinct, so the first match is the dict entry. -/
def nameToSpace (keys : List ControlSpace) (k : String) : Option ControlSpace :=
  keys.find? (fun s => decide (spaceValue s = k))

/-- `use_damping`: gain positive, velocities provided and non-empty. -/
def useDamping (cfg : SafetyInjectorConfig) (current_velocities : Option (List ℚ)) : Bool :=
  match current_velocities with
  | none => false
  | some vs => decide (0 < cfg.damping_gain) && decide (0 < vs.length)

/-- The target spaces of safety_injector.safety_injector: all of
`space_dofs` when `cfg.global_stop` or `affected_spaces` is missing or
empty, otherwise the affected subset resolved through `name_to_space`. -/
def injectorTargets (event : SafetyEvent) (space_dofs : List (ControlSpace × List Nat))
    (cfg : SafetyInjectorConfig) : List ControlSpace :=
  if (cfg.global_stop
      || (match event.affected_spaces with
          | none => true
          | some m => m.isEmpty)) = true then
    space_dofs.map (fun p => p.1)
  else
    List.filterMap
      (fun pr : String × String => nameToSpace (space_dofs.map (fun p => p.1)) pr.1)
      (match event.affected_spaces with
        | none => []
        | some m => m)

/-- `space_dofs.get(space, ())`. -/
def sdGet (space_dofs : List (ControlSpace × List Nat)) (s : ControlSpace) : List Nat :=
  ((space_dofs.find? (fun p => decide (p.1 = s))).map (fun p => p.2)).getD []

/-- safety_injector.safety_injector. The per-space loop runs over the
target spaces in sorted space-value order, skipping spaces with empty
DOFs. In the damping branch the Python guard `idx < len(current_velocities)`
makes the `except IndexError` fallback unreachable: out-of-range DOFs get
the value 0.0 inside the JOINT_TORQUE command. -/
def safety_injector (event : SafetyEvent) (space_dofs : List (ControlSpace × List Nat))
    (cfg : SafetyInjectorConfig) (current_velocities : Option (List ℚ)) :
    List MaskedCommand :=
  if event.level = SafetyLevel.NONE ∨ event.level = SafetyLevel.WARN then []
  else
    (sortedSpaces.filter
      (fun s => decide (s ∈ injectorTargets event space_dofs cfg))).filterMap
      (fun space =>
        match sdGet space_dofs space with
        | [] => none
        | dofs =>
            if useDamping cfg current_velocities = true then
              some ⟨space, CommandKind.JOINT_TORQUE, dofs,
                dofs.map (fun idx =>
                  match current_velocities with
                  | none => 0
                  | some vs =>
                      if idx < vs.length then -(cfg.damping_gain * vs.getD idx 0) else 0),
                "safety"⟩
            else
              some ⟨space, cfg.stop_kind, dofs, dofs.map (fun _ => 0), "safety"⟩)

/-- types.ActionKind. -/
inductive ActionKind where
  | ENABLE_SKILL
  | DISABLE_SKILL
  | SET_GOAL
  | SET_PHASE
  | APPLY_ENVELOPE
  | EMERGENCY_STOP
deriving DecidableEq, Repr

/-- The goal payload dict; only its "type" entry is consulted by the
gate, so only that key is modelled. -/
structure GoalPayload where
  gtype : Option String
deriving DecidableEq, Repr

/-- types.Action (named KernelAction: `Action` is taken by Mathlib). -/
structure KernelAction where
  kind : ActionKind
  seq : Int
  skill_name : Option String
  goal : Option GoalPayload
  next_phase : Option Phase
  envelope_name : Option String
  action_id : Option String
deriving DecidableEq, Repr

/-- types.StateSnapshot, with each `Timestamped` field flattened into its
value and its timestamp. `ee_pose` keeps the (x, y, z) part of the pose,
the only components the gate reads. -/
structure StateSnapshot where
  t_kernel : ℚ
  joints_q : List ℚ
  joints_q_t : ℚ
  joints_qd : List ℚ
  joints_qd_t : ℚ
  ee_pose : Option (ℚ × ℚ × ℚ)
  ee_pose_t : ℚ
  contacts : List (String × Bool)
  contacts_t : ℚ
  perception_trust : PerceptionTrust
  perception_trust_t : ℚ
  phase : Phase
  seq : Int
  env_fingerprint : String
deriving DecidableEq, Repr

/-- ledger.Ledger (the mutable set of seen ids as a list). -/
structure Ledger where
  last_seq : Int
  seen_action_ids : List String
deriving DecidableEq, Repr

/-- gate.GateDecision. -/
structure GateDecision where
  ok : Bool
  reason : String
  reject_code : String
deriving DecidableEq, Repr

/-- ledger.Ledger.can_apply. -/
def can_apply (ledger : Ledger) (action : KernelAction) : Bool :=
  if action.kind = ActionKind.EMERGENCY_STOP then true
  else if action.seq ≠ ledger.last_seq + 1 then false
  else
    match action.action_id with
    | some aid => if aid ∈ ledger.seen_action_ids then false else true
    | none => true

/-- Python `abs` on rationals, written with `if` so that it reduces. -/
def absQ (a : ℚ) : ℚ :=
  if a < 0 then -a else a

/-- `min(ts)` over the five snapshot field timestamps. -/
def tsMin (state : StateSnapshot) : ℚ :=
  minQ (minQ (minQ (minQ state.joints_q_t state.joints_qd_t) state.ee_pose_t)
    state.contacts_t) state.perception_trust_t

/-- `max(ts)` over the five snapshot field timestamps. -/
def tsMax (state : StateSnapshot) : ℚ :=
  maxQ (maxQ (maxQ (maxQ state.joints_q_t state.joints_qd_t) state.ee_pose_t)
    state.contacts_t) state.perception_trust_t

/-- gate._snapshot_time_ok (the float-formatted reason strings are kept
as their fixed prefixes). -/
def snapshot_time_ok (state : StateSnapshot) (env : Envelope) : Bool × String × String :=
  if tsMax state - tsMin state > env.max_snapshot_skew_s then
    (false, "Snapshot skew too large", "SNAPSHOT_SKEW")
  else if state.t_kernel - tsMin state > env.max_state_staleness_s then
    (false, "Snapshot too stale", "SNAPSHOT_STALE")
  else if tsMax state > state.t_kernel + mkRat 1 1000000 then
    (false, "Snapshot contains future-dated signals", "SNAPSHOT_FUTURE")
  else (true, "Time OK", "OK")

/-- The per-joint position loop of gate._state_bounds_ok. The last
pattern is the Python IndexError (unreachable: the DOF-mismatch check
guarantees equal lengths). -/
def posCheck (i : Nat) : List ℚ → List ℚ → List ℚ → Option (Option (String × String))
  | [], _, _ => some none
  | qi :: qt, mn :: mnt, mx :: mxt =>
      if qi < mn ∨ qi > mx then
        some (some ("Joint " ++ toString i ++ " out of range", "JOINT_LIMIT"))
      else posCheck (i + 1) qt mnt mxt
  | _ :: _, _, _ => none

/-- The per-joint velocity loop of gate._state_bounds_ok. The last
pattern is the Python IndexError: the DOF-mismatch check compares only
`joints_q` against the envelope vectors, so a `joints_qd` longer than
`qd_abs_max` runs off the end of the limit vector. -/
def velCheck (i : Nat) : List ℚ → List ℚ → Option (Option (String × String))
  | [], _ => some none
  | qdi :: qt, lim :: lt =>
      if absQ qdi > lim then
        some (some ("Joint " ++ toString i ++ " velocity too high", "JOINT_VELOCITY"))
      else velCheck (i + 1) qt lt
  | _ :: _, [] => none

/-- The exclusion-zone loop of gate._state_bounds_ok. -/
def zoneCheck (x y z : ℚ) (i : Nat) :
    List ((ℚ × ℚ × ℚ) × (ℚ × ℚ × ℚ)) → Option (String × String)
  | [] => none
  | ((zx1, zy1, zz1), (zx2, zy2, zz2)) :: rest =>
      if zx1 ≤ x ∧ x ≤ zx2 ∧ zy1 ≤ y ∧ y ≤ zy2 ∧ zz1 ≤ z ∧ z ≤ zz2 then
        some ("End-effector inside exclusion zone " ++ toString i, "EE_IN_ZONE")
      else zoneCheck x y z (i + 1) rest

/-- gate._state_bounds_ok; `none` models an uncaught IndexError. -/
def state_bounds_ok (state : StateSnapshot) (env : Envelope) :
    Option (Bool × String × String) :=
  if state.joints_q.length ≠ env.q_min.length ∨ state.joints_q.length ≠ env.q_max.length
      ∨ state.joints_q.length ≠ env.qd_abs_max.length then
    some (false, "DOF mismatch between state and envelope", "DOF_MISMATCH")
  else
    match posCheck 0 state.joints_q env.q_min env.q_max with
    | none => none
    | some (some (msg, code)) => some (false, msg, code)
    | some none =>
        match velCheck 0 state.joints_qd env.qd_abs_max with
        | none => none
        | some (some (msg, code)) => some (false, msg, code)
        | some none =>
            match state.ee_pose with
            | none => some (true, "Bounds OK", "OK")
            | some (x, y, z) =>
                if ¬ (env.ee_xyz_min.1 ≤ x ∧ x ≤ env.ee_xyz_max.1
                    ∧ env.ee_xyz_min.2.1 ≤ y ∧ y ≤ env.ee_xyz_max.2.1
                    ∧ env.ee_xyz_min.2.2 ≤ z ∧ z ≤ env.ee_xyz_max.2.2) then
                  some (false, "End-effector out of workspace", "EE_WORKSPACE")
                else
                  match env.exclusion_zones with
                  | none => some (true, "Bounds OK", "OK")
                  | some zones =>
                      if zones.isEmpty then some (true, "Bounds OK", "OK")
                      else
                        match zoneCheck x y z 0 zones with
                        | some (msg, code) => some (false, msg, code)
                        | none => some (true, "Bounds OK", "OK")

/-- Python `not s` on an optional string: missing or empty. -/
def strFalsy (s : Option String) : Bool :=
  match s with
  | none => true
  | some str => decide (str = "")

/-- gate._action_ok. The EMERGENCY_STOP case falls through every branch
of the Python function to "Unknown action kind", and the gate returns
before calling it for that kind. -/
def action_ok (state : StateSnapshot) (action : KernelAction) (env : Envelope)
    (enabled_skills : List (String × Bool)) : Bool × String × String :=
  match action.kind with
  | ActionKind.ENABLE_SKILL =>
      match action.skill_name with
      | none => (false, "Missing skill_name", "BAD_ACTION")
      | some sk =>
          if sk = "" then (false, "Missing skill_name", "BAD_ACTION")
          else if (enabled_skills.find? (fun p => decide (p.1 = sk))).isNone then
            (false, "Unknown skill", "UNKNOWN_SKILL")
          else if state.phase ≠ Phase.IDLE ∧ state.phase ≠ Phase.RECOVERY then
            (false, "Can only enable skills in IDLE/RECOVERY", "PHASE_RULE")
          else (true, "OK", "OK")
  | ActionKind.DISABLE_SKILL =>
      match action.skill_name with
      | none => (false, "Missing skill_name", "BAD_ACTION")
      | some sk =>
          if sk = "" then (false, "Missing skill_name", "BAD_ACTION")
          else if (enabled_skills.find? (fun p => decide (p.1 = sk))).isNone then
            (false, "Unknown skill", "UNKNOWN_SKILL")
          else (true, "OK", "OK")
  | ActionKind.SET_GOAL =>
      match action.goal with
      | none => (false, "Missing goal", "BAD_ACTION")
      | some g =>
          match g.gtype with
          | some t =>
              if t = "reach" ∨ t = "move_base" ∨ t = "grasp" ∨ t = "lift" then
                (true, "OK", "OK")
              else (false, "Unsupported goal type", "BAD_GOAL")
          | none => (false, "Unsupported goal type", "BAD_GOAL")
  | ActionKind.SET_PHASE =>
      match action.next_phase with
      | none => (false, "Missing next_phase", "BAD_ACTION")
      | some np =>
          if (state.phase, np) ∈ env.allowed_phase_edges then (true, "OK", "OK")
          else (false, "Illegal phase transition", "PHASE_EDGE")
  | ActionKind.APPLY_ENVELOPE =>
      match action.envelope_name with
      | none => (false, "Missing envelope_name", "BAD_ACTION")
      | some en =>
          if en = "" then (false, "Missing envelope_name", "BAD_ACTION")
          else if state.phase ≠ Phase.IDLE ∧ state.phase ≠ Phase.RECOVERY then
            (false, "Can only apply envelope in IDLE/RECOVERY", "PHASE_RULE")
          else (true, "OK", "OK")
  | ActionKind.EMERGENCY_STOP => (false, "Unknown action kind", "BAD_ACTION_KIND")

/-- Python `str.startswith`, modelled on the character lists (the
built-in `String.startsWith` does not reduce in the kernel). -/
def strStarts (s pre : String) : Bool :=
  pre.toList.isPrefixOf s.toList

/-- gate.gate; `none` models an uncaught exception escaping the gate
(possible only inside `_state_bounds_ok`). -/
def gate (state : StateSnapshot) (action : KernelAction) (envelope : Envelope)
    (ledger : Ledger) (enabled_skills : List (String × Bool)) : Option GateDecision :=
  if action.kind = ActionKind.EMERGENCY_STOP then some ⟨true, "E-STOP allowed", "OK"⟩
  else if can_apply ledger action = false then
    some ⟨false, "Ledger ordering / replay violation", "ORDER_VIOLATION"⟩
  else if strStarts state.env_fingerprint envelope.env_scope_pre = false then
    some ⟨false, "Envelope not valid for environment fingerprint", "ENV_SCOPE_MISMATCH"⟩
  else
    match snapshot_time_ok state envelope with
    | (ok1, msg1, code1) =>
        if ok1 = false then some ⟨false, msg1, code1⟩
        else if state.perception_trust = PerceptionTrust.DEGRADED
            ∧ envelope.allow_new_commits_when_degraded = false then
          some ⟨false, "Perception DEGRADED: no new commits allowed", "PERCEPTION_DEGRADED"⟩
        else if state.perception_trust = PerceptionTrust.UNTRUSTED
            ∧ envelope.allow_new_commits_when_untrusted = false then
          some ⟨false, "Perception UNTRUSTED: no new commits allowed", "PERCEPTION_UNTRUSTED"⟩
        else
          match state_bounds_ok state envelope with
          | none => none
          | some (ok2, msg2, code2) =>
              if ok2 = false then some ⟨false, msg2, code2⟩
              else
                match action_ok state action envelope enabled_skills with
                | (ok3, msg3, code3) =>
                    if ok3 = false then some ⟨false, msg3, code3⟩
                    else some ⟨true, "Accepted", "OK"⟩

/-! ### Theorems -/

theorem maxQ_eq (a b : ℚ) : maxQ a b = max a b := by
  unfold maxQ
  split
  · exact (max_eq_right (by assumption)).symm
  · exact (max_eq_left (le_of_not_le (by assumption))).symm

theorem minQ_eq (a b : ℚ) : minQ a b = min a b := by
  unfold minQ
  split
  · exact (min_eq_left (by assumption)).symm
  · exact (min_eq_right (le_of_not_le (by assumption))).symm

theorem clampQ_le_hi (v lo hi : ℚ) : clampQ v lo hi ≤ hi := by
  rw [clampQ, minQ_eq]
  exact min_le_right _ _

theorem lo_le_clampQ (v lo hi : ℚ) (h : lo ≤ hi) : lo ≤ clampQ v lo hi := by
  rw [clampQ, minQ_eq, maxQ_eq]
  exact le_min (le_max_right _ _) h

theorem abs_clampQ_le (v lim : ℚ) (h : 0 ≤ lim) : |clampQ v (-lim) lim| ≤ lim :=
  abs_le.mpr ⟨lo_le_clampQ v (-lim) lim ((neg_nonpos.mpr h).trans h), clampQ_le_hi v (-lim) lim⟩

theorem zip_get?_of {α β : Type} {l1 : List α} {l2 : List β} {k : Nat} {a : α} {b : β}
    (h1 : l1.get? k = some a) (h2 : l2.get? k = some b) :
    (l1.zip l2).get? k = some (a, b) := by
  induction l1 generalizing l2 k with
  | nil => simp at h1
  | cons x xs ih =>
    cases l2 with
    | nil => simp at h2
    | cons y ys =>
      cases k with
      | zero =>
        simp only [List.get?] at h1 h2
        cases h1; cases h2
        rfl
      | succ k =>
        simp only [List.get?] at h1 h2 ⊢
        exact ih h1 h2

theorem get?_of_lt_length {α : Type} {l : List α} {k : Nat} (h : k < l.length) :
    ∃ a, l.get? k = some a := by
  cases hg : l.get? k with
  | none => exact absurd (List.get?_eq_none.mp hg) (by omega)
  | some a => exact ⟨a, rfl⟩

theorem zip_map_get? {l1 : List Nat} {l2 : List ℚ} (f : Nat × ℚ → ℚ) {k : Nat} {i : Nat}
    (hlen : l1.length = l2.length) (hm : l1.get? k = some i) :
    ∃ v0, l2.get? k = some v0 ∧ ((l1.zip l2).map f).get? k = some (f (i, v0)) := by
  have hk : k < l1.length := by
    by_contra hc
    rw [List.get?_eq_none.mpr (by omega)] at hm
    exact Option.noConfusion hm
  obtain ⟨v0, hv0⟩ := get?_of_lt_length (l := l2) (k := k) (by omega)
  refine ⟨v0, hv0, ?_⟩
  rw [List.get?_map, zip_get?_of hm hv0]
  rfl

/-- C2 (counterexample to the claim as stated): a lease with equal-length
vectors, `q_min[0] ≤ q_max[0]` and all mask indices in range, but a
negative `qd_abs_max[0] = -1`. `clamp_masked_command_to_lease` returns ok
with clamped value `-1`, yet the claimed bound `|v| ≤ qd_abs_max[0]` fails
because the right-hand side is negative. -/
theorem c2_clamp_claim_counterexample :
    (clamp_masked_command_to_lease
      ⟨ControlSpace.ARM, CommandKind.JOINT_VELOCITY, [0], [0], "reach"⟩
      ⟨1, "L", 0, 10, [0], [0], [-1], none, none⟩).2.ok = true
    ∧ (clamp_masked_command_to_lease
        ⟨ControlSpace.ARM, CommandKind.JOINT_VELOCITY, [0], [0], "reach"⟩
        ⟨1, "L", 0, 10, [0], [0], [-1], none, none⟩).1
      = some ⟨ControlSpace.ARM, CommandKind.JOINT_VELOCITY, [0], [-1], "reach"⟩
    ∧ ¬ (|(-1 : ℚ)| ≤ getQ [-1] 0) := by
  refine ⟨by decide, by decide, ?_⟩
  norm_num [getQ]

/-- C2 (amended): absolute clamp soundness. If the lease vectors are
consistent, `q_min[i] ≤ q_max[i]`, and — amendment forced by the
counterexample — the velocity (resp. torque) limit vectors are
non-negative, then whenever `clamp_masked_command_to_lease` succeeds the
output command keeps the space, kind, mask and source of the input and
every output value respects the claimed per-DOF bound for its kind;
torque succeeds only when `tau_abs_max` is present. -/
theorem c2_clamp_lease_sound
    (cmd : MaskedCommand) (lease : CapabilityLease) (out : MaskedCommand) (res : SafetyResult)
    (hlen : cmd.dof_mask.length = cmd.values.length)
    (hq : ∀ i, i < lease.q_min.length → getQ lease.q_min i ≤ getQ lease.q_max i)
    (hv : ∀ i, i < lease.q_min.length → 0 ≤ getQ lease.qd_abs_max i)
    (ht : ∀ tl, lease.tau_abs_max = some tl → ∀ i, i < lease.q_min.length → 0 ≤ getQ tl i)
    (hres : clamp_masked_command_to_lease cmd lease = (some out, res)) :
    out.space = cmd.space ∧ out.kind = cmd.kind ∧ out.dof_mask = cmd.dof_mask
    ∧ out.source = cmd.source ∧ res.ok = true
    ∧ (cmd.kind = CommandKind.JOINT_TORQUE → lease.tau_abs_max ≠ none)
    ∧ ∀ k i, cmd.dof_mask.get? k = some i →
        ∃ v, out.values.get? k = some v
        ∧ (cmd.kind = CommandKind.JOINT_POSITION →
            getQ lease.q_min i ≤ v ∧ v ≤ getQ lease.q_max i)
        ∧ (cmd.kind = CommandKind.JOINT_VELOCITY → |v| ≤ getQ lease.qd_abs_max i)
        ∧ (∀ tl, lease.tau_abs_max = some tl → cmd.kind = CommandKind.JOINT_TORQUE →
            |v| ≤ getQ tl i) := by
  unfold clamp_masked_command_to_lease at hres
  split at hres
  · exact absurd (congrArg Prod.fst hres) (by simp)
  split at hres
  · exact absurd (congrArg Prod.fst hres) (by simp)
  rename_i hshape hoob
  have hin : ∀ i ∈ cmd.dof_mask, i < lease.q_min.length := by
    intro i hi
    by_contra hc
    exact hoob (List.any_eq_true.mpr ⟨i, hi, by simpa using hc⟩)
  split at hres
  case _ hkind =>
    -- JOINT_POSITION
    injection hres with h1 h2
    injection h1 with h1
    subst h2
    subst h1
    refine ⟨rfl, rfl, rfl, rfl, rfl, ?_, ?_⟩
    · intro hT
      rw [hkind] at hT
      exact CommandKind.noConfusion hT
    · intro k i hmk
      obtain ⟨v0, _, hmap⟩ := zip_map_get?
        (fun p => clampQ p.2 (getQ lease.q_min p.1) (getQ lease.q_max p.1)) hlen hmk
      have hilt : i < lease.q_min.length := hin i (List.get?_mem hmk)
      refine ⟨_, hmap, ?_, ?_, ?_⟩
      · intro _
        exact ⟨lo_le_clampQ _ _ _ (hq i hilt), clampQ_le_hi _ _ _⟩
      · intro hveq
        rw [hkind] at hveq
        exact CommandKind.noConfusion hveq
      · intro _ _ hteq
        rw [hkind] at hteq
        exact CommandKind.noConfusion hteq
  case _ hkind =>
    -- JOINT_VELOCITY
    injection hres with h1 h2
    injection h1 with h1
    subst h2
    subst h1
    refine ⟨rfl, rfl, rfl, rfl, rfl, ?_, ?_⟩
    · intro hT
      rw [hkind] at hT
      exact CommandKind.noConfusion hT
    · intro k i hmk
      obtain ⟨v0, _, hmap⟩ := zip_map_get?
        (fun p => clampQ p.2 (-(getQ lease.qd_abs_max p.1)) (getQ lease.qd_abs_max p.1)) hlen hmk
      have hilt : i < lease.q_min.length := hin i (List.get?_mem hmk)
      refine ⟨_, hmap, ?_, ?_, ?_⟩
      · intro hpeq
        rw [hkind] at hpeq
        exact CommandKind.noConfusion hpeq
      · intro _
        exact abs_clampQ_le _ _ (hv i hilt)
      · intro _ _ hteq
        rw [hkind] at hteq
        exact CommandKind.noConfusion hteq
  case _ hkind =>
    -- JOINT_TORQUE
    split at hres
    · exact absurd (congrArg Prod.fst hres) (by simp)
    rename_i tau htau
    split at hres
    · exact absurd (congrArg Prod.fst hres) (by simp)
    rename_i htl
    injection hres with h1 h2
    injection h1 with h1
    subst h2
    subst h1
    refine ⟨rfl, rfl, rfl, rfl, rfl, ?_, ?_⟩
    · intro _
      rw [htau]
      exact Option.noConfusion
    · intro k i hmk
      obtain ⟨v0, _, hmap⟩ := zip_map_get?
        (fun p => clampQ p.2 (-(getQ tau p.1)) (getQ tau p.1)) hlen hmk
      have hilt : i < lease.q_min.length := hin i (List.get?_mem hmk)
      refine ⟨_, hmap, ?_, ?_, ?_⟩
      · intro hpeq
        rw [hkind] at hpeq
        exact CommandKind.noConfusion hpeq
      · intro hveq
        rw [hkind] at hveq
        exact CommandKind.noConfusion hveq
      · intro tl htl2 _
        rw [htau] at htl2
        injection htl2 with htl2
        subst htl2
        exact abs_clampQ_le _ _ (ht tau htau i hilt)

/-- C2 witness: the amended soundness theorem applied at a concrete
velocity command and lease. -/
theorem c2_clamp_lease_sound_witness :
    ∃ out res,
      clamp_masked_command_to_lease
        ⟨ControlSpace.ARM, CommandKind.JOINT_VELOCITY, [0], [9], "reach"⟩
        ⟨1, "L", 0, 10, [-1], [1], [2], none, none⟩ = (some out, res)
      ∧ res.ok = true := by
  refine ⟨⟨ControlSpace.ARM, CommandKind.JOINT_VELOCITY, [0], [2], "reach"⟩,
    ⟨true, "OK", "OK"⟩, by decide, ?_⟩
  have h := c2_clamp_lease_sound
    ⟨ControlSpace.ARM, CommandKind.JOINT_VELOCITY, [0], [9], "reach"⟩
    ⟨1, "L", 0, 10, [-1], [1], [2], none, none⟩
    ⟨ControlSpace.ARM, CommandKind.JOINT_VELOCITY, [0], [2], "reach"⟩
    ⟨true, "OK", "OK"⟩
    (by decide)
    (by
      intro i hi
      have h0 : i = 0 := by simpa using hi
      subst h0
      norm_num [getQ])
    (by
      intro i hi
      have h0 : i = 0 := by simpa using hi
      subst h0
      norm_num [getQ])
    (by intro tl htl; exact Option.noConfusion htl)
    (by decide)
  exact h.2.2.2.2.1

theorem mkRat_ten_thousandth : (mkRat 1 10000 : ℚ) = 1 / 10000 := by
  norm_num [mkRat, Rat.normalize]

theorem mkRat_thousandth : (mkRat 1 1000 : ℚ) = 1 / 1000 := by
  norm_num [mkRat, Rat.normalize]

theorem mkRat_tenth : (mkRat 1 10 : ℚ) = 1 / 10 := by
  norm_num [mkRat, Rat.normalize]

theorem mapOption_some {α β : Type} (f : α → Option β) (l : List α)
    (h : ∀ a ∈ l, ∃ b, f a = some b) :
    ∃ out, mapOption f l = some out ∧
      ∀ k a, l.get? k = some a → ∃ b, f a = some b ∧ out.get? k = some b := by
  induction l with
  | nil =>
    refine ⟨[], rfl, ?_⟩
    intro k a hk
    simp at hk
  | cons x xs ih =>
    obtain ⟨b, hb⟩ := h x (by simp)
    obtain ⟨out, hout, hpt⟩ := ih (fun a ha => h a (by simp [ha]))
    refine ⟨b :: out, ?_, ?_⟩
    · simp [mapOption, hb, hout]
    · intro k a hk
      cases k with
      | zero =>
        simp only [List.get?] at hk
        cases hk
        exact ⟨b, hb, rfl⟩
      | succ k => exact hpt k a hk

theorem abs_dyn_clamp_le (v pv step : ℚ) (h : 0 ≤ step) :
    |maxQ (pv - step) (minQ v (pv + step)) - pv| ≤ step := by
  rw [maxQ_eq, minQ_eq, abs_le]
  constructor
  · have h1 := le_max_left (pv - step) (min v (pv + step))
    linarith
  · have h2 : min v (pv + step) ≤ pv + step := min_le_right _ _
    have h3 : max (pv - step) (min v (pv + step)) ≤ pv + step := max_le (by linarith) h2
    linarith

/-- C3 (counterexample to the claim as stated): an envelope whose
acceleration vector covers all masked indices but holds the negative
limit `-1`. With `dt = 1` and previous value `0`, `clamp_dynamics`
succeeds and returns the value `1`, yet the claimed bound
`|v_new - v_prev| ≤ q_acc_abs_max[0] * dt` fails since the right-hand
side is `-1`. -/
theorem c3_dynamics_claim_counterexample :
    clamp_dynamics ⟨ControlSpace.ARM, CommandKind.JOINT_VELOCITY, [0], [0], "reach"⟩
      (some ⟨ControlSpace.ARM, CommandKind.JOINT_VELOCITY, [0], [0], "reach"⟩)
      ⟨"e", "lab", 0, 0, [], [], [], (0, 0, 0), (0, 0, 0), false, false, [], [],
        some [-1], none⟩ 1
    = some (some ⟨ControlSpace.ARM, CommandKind.JOINT_VELOCITY, [0], [1], "reach"⟩,
        ⟨true, "Dynamics clamped", "OK"⟩)
    ∧ ¬ (|(1 : ℚ) - 0| ≤ getQ [-1] 0 * 1) := by
  constructor
  · norm_num [clamp_dynamics, prevMapGet, mapOption, maxQ, minQ, getQ, mkRat_ten_thousandth,
      List.find?]
  · norm_num [getQ]

/-- C3 (amended): dynamics soundness. For velocity commands with a
same-kind previous command, an acceleration vector covering all masked
indices and — amendment forced by the counterexample — non-negative on
them, and `dt > 0.0001`, the dynamics clamp succeeds, keeps space, kind,
mask and source, bounds the change of every masked DOF with a prior value
by `q_acc_abs_max[i] * dt`, and passes masked DOFs without a prior value
through unchanged. -/
theorem c3_clamp_dynamics_sound
    (cmd prev : MaskedCommand) (envelope : Envelope) (dt : ℚ) (acc : List ℚ)
    (hacc : envelope.q_acc_abs_max = some acc)
    (hkc : cmd.kind = CommandKind.JOINT_VELOCITY)
    (hkp : prev.kind = CommandKind.JOINT_VELOCITY)
    (hlen : cmd.dof_mask.length = cmd.values.length)
    (hcov : ∀ i ∈ cmd.dof_mask, i < acc.length)
    (hnn : ∀ i ∈ cmd.dof_mask, 0 ≤ getQ acc i)
    (hdt : mkRat 1 10000 < dt) :
    ∃ out res, clamp_dynamics cmd (some prev) envelope dt = some (some out, res)
    ∧ res.ok = true
    ∧ out.space = cmd.space ∧ out.kind = cmd.kind ∧ out.dof_mask = cmd.dof_mask
    ∧ out.source = cmd.source
    ∧ ∀ k i, cmd.dof_mask.get? k = some i →
        (∀ pv, prevMapGet prev i = some pv →
          ∃ v, out.values.get? k = some v ∧ |v - pv| ≤ getQ acc i * dt)
        ∧ (prevMapGet prev i = none → out.values.get? k = cmd.values.get? k) := by
  have hdt0 : 0 < dt := lt_trans (by rw [mkRat_ten_thousandth]; norm_num) hdt
  have hex : ∀ p ∈ cmd.dof_mask.zip cmd.values, ∃ b,
      (match prevMapGet prev p.1 with
        | none => some p.2
        | some prev_val =>
            (acc.get? p.1).map (fun acc_limit =>
              maxQ (prev_val - acc_limit * dt) (minQ p.2 (prev_val + acc_limit * dt)))) = some b := by
    intro p hp
    have hpm : p.1 ∈ cmd.dof_mask := (List.of_mem_zip hp).1
    cases hpv : prevMapGet prev p.1 with
    | none => exact ⟨p.2, rfl⟩
    | some pv =>
      obtain ⟨a, ha⟩ := get?_of_lt_length (hcov p.1 hpm)
      exact ⟨_, by rw [ha]; rfl⟩
  obtain ⟨new_values, hnv, hpt⟩ := mapOption_some _ _ hex
  refine ⟨⟨cmd.space, cmd.kind, cmd.dof_mask, new_values, cmd.source⟩,
    ⟨true, "Dynamics clamped", "OK"⟩, ?_, rfl, rfl, rfl, rfl, rfl, ?_⟩
  · simp only [clamp_dynamics, hacc]
    rw [if_neg (not_le.mpr hdt)]
    have hne : ¬ (cmd.kind ≠ prev.kind) := by
      rw [hkc, hkp]
      simp
    rw [if_neg hne, if_pos hkc, hnv]
  · intro k i hmk
    have hilt : i < acc.length := hcov i (List.get?_mem hmk)
    obtain ⟨v0, hv0, _⟩ := zip_map_get? (fun p => p.2) hlen hmk
    have hzip : (cmd.dof_mask.zip cmd.values).get? k = some (i, v0) := zip_get?_of hmk hv0
    obtain ⟨b, hb, hbk⟩ := hpt k (i, v0) hzip
    constructor
    · intro pv hpv
      rw [hpv] at hb
      obtain ⟨a, ha⟩ := get?_of_lt_length hilt
      rw [ha] at hb
      simp only [Option.map_some'] at hb
      injection hb with hb
      refine ⟨b, hbk, ?_⟩
      have haq : getQ acc i = a := by
        unfold getQ
        rw [List.getD_eq_getElem?_getD]
        rw [← List.get?_eq_getElem?, ha]
        rfl
      rw [haq, ← hb]
      exact abs_dyn_clamp_le _ _ _ (mul_nonneg (by rw [← haq]; exact hnn i (List.get?_mem hmk)) (le_of_lt hdt0))
    · intro hpv
      rw [hpv] at hb
      cases hb
      rw [hbk, hv0]

/-- C3 witness: the amended dynamics soundness theorem applied at a
concrete velocity command jumping from 0 to 5 under limit 1 and dt 1. -/
theorem c3_clamp_dynamics_sound_witness :
    ∃ out res,
      clamp_dynamics ⟨ControlSpace.ARM, CommandKind.JOINT_VELOCITY, [0], [5], "reach"⟩
        (some ⟨ControlSpace.ARM, CommandKind.JOINT_VELOCITY, [0], [0], "reach"⟩)
        ⟨"e", "lab", 0, 0, [], [], [], (0, 0, 0), (0, 0, 0), false, false, [], [],
          some [1], none⟩ 1
      = some (some out, res) ∧ res.ok = true := by
  obtain ⟨out, res, h1, h2, _⟩ := c3_clamp_dynamics_sound
    ⟨ControlSpace.ARM, CommandKind.JOINT_VELOCITY, [0], [5], "reach"⟩
    ⟨ControlSpace.ARM, CommandKind.JOINT_VELOCITY, [0], [0], "reach"⟩
    ⟨"e", "lab", 0, 0, [], [], [], (0, 0, 0), (0, 0, 0), false, false, [], [],
      some [1], none⟩ 1 [1]
    rfl rfl rfl rfl
    (by intro i hi; simp at hi; simp [hi])
    (by intro i hi; simp at hi; simp [hi, getQ])
    (by decide)
  exact ⟨out, res, h1, h2⟩

theorem step_no_lease (s : ControllerState) (hs : s.active_lease = none)
    (now_t : ℚ) (proposals : List MaskedCommand) :
    ∃ out, step_controller_multi s now_t proposals = some (out, s)
      ∧ out.ok = false ∧ out.final_by_space = [] := by
  unfold step_controller_multi
  by_cases hestop : s.estop = true
  · rw [if_pos hestop]
    exact ⟨_, rfl, rfl, rfl⟩
  · rw [if_neg hestop, hs]
    exact ⟨_, rfl, rfl, rfl⟩

theorem install_lease_cases (s : ControllerState) (lease : CapabilityLease)
    (now_t : ℚ) (env : Option Envelope) :
    install_lease s lease now_t env = (false, s)
    ∨ (install_lease s lease now_t env).1 = true := by
  unfold install_lease
  split
  · exact Or.inl rfl
  split
  · exact Or.inl rfl
  split
  · exact Or.inl rfl
  · exact Or.inr rfl

theorem runEvents_cons_inv {s : ControllerState} {e : KEvent} {rest : List KEvent}
    {outs : List EvOut} {s1 : ControllerState}
    (h : runEvents s (e :: rest) = some (outs, s1)) :
    ∃ o0 s2 os, execEvent s e = some (o0, s2) ∧ runEvents s2 rest = some (os, s1)
      ∧ outs = o0 :: os := by
  simp only [runEvents] at h
  cases hex : execEvent s e with
  | none =>
    rw [hex] at h
    exact Option.noConfusion h
  | some p =>
    rw [hex] at h
    obtain ⟨o0, s2⟩ := p
    dsimp only at h
    cases hrest : runEvents s2 rest with
    | none =>
      rw [hrest] at h
      exact Option.noConfusion h
    | some q =>
      obtain ⟨os, s3⟩ := q
      rw [hrest] at h
      injection h with h1
      injection h1 with h1 h2
      subst h2
      exact ⟨o0, s2, os, rfl, hrest, h1.symm⟩

theorem runEvents_no_lease (evs : List KEvent) :
    ∀ (s : ControllerState), s.active_lease = none →
    ∀ (outs : List EvOut) (s1 : ControllerState),
    runEvents s evs = some (outs, s1) →
    EvOut.installed true ∉ outs →
    ∀ o ∈ outs, ∀ co, o = EvOut.tick co → co.ok = false ∧ co.final_by_space = [] := by
  induction evs with
  | nil =>
    intro s hs outs s1 hrun hno o ho
    simp only [runEvents] at hrun
    injection hrun with h1
    injection h1 with h1 h2
    subst h1
    simp at ho
  | cons e rest ih =>
    intro s hs outs s1 hrun hno o ho co hoco
    obtain ⟨o0, s2, os, hex, hrest, rfl⟩ := runEvents_cons_inv hrun
    have hno2 : EvOut.installed true ∉ os := fun hm => hno (List.mem_cons_of_mem _ hm)
    cases e with
    | tick now_t props =>
      obtain ⟨out, hstep, hok, hfin⟩ := step_no_lease s hs now_t props
      have hex2 : execEvent s (KEvent.tick now_t props) = some (EvOut.tick out, s) := by
        simp only [execEvent, hstep, Option.map_some']
      have heq := hex2.symm.trans hex
      injection heq with heq
      injection heq with h1 h2
      subst h1
      subst h2
      rcases List.mem_cons.mp ho with rfl | ho2
      · injection hoco with hoco
        subst hoco
        exact ⟨hok, hfin⟩
      · exact ih s hs os s1 hrest hno2 o ho2 co hoco
    | install lease now_t env =>
      rcases install_lease_cases s lease now_t env with hcase | htrue
      · have hex2 : execEvent s (KEvent.install lease now_t env)
            = some (EvOut.installed false, s) := by
          simp only [execEvent, hcase]
        have heq := hex2.symm.trans hex
        injection heq with heq
        injection heq with h1 h2
        subst h1
        subst h2
        rcases List.mem_cons.mp ho with rfl | ho2
        · exact absurd hoco (by simp)
        · exact ih s hs os s1 hrest hno2 o ho2 co hoco
      · exfalso
        have hex2 : execEvent s (KEvent.install lease now_t env)
            = some (EvOut.installed true, (install_lease s lease now_t env).2) := by
          simp only [execEvent, htrue]
        have heq := hex2.symm.trans hex
        injection heq with heq
        injection heq with h1 h2
        subst h1
        exact hno (List.mem_cons_self _ _)
    | estopOn =>
      have hex2 : execEvent s KEvent.estopOn = some (EvOut.admin, apply_estop s) := rfl
      have heq := hex2.symm.trans hex
      injection heq with heq
      injection heq with h1 h2
      subst h1
      subst h2
      rcases List.mem_cons.mp ho with rfl | ho2
      · exact absurd hoco (by simp)
      · exact ih (apply_estop s) rfl os s1 hrest hno2 o ho2 co hoco
    | estopOff =>
      have hex2 : execEvent s KEvent.estopOff = some (EvOut.admin, clear_estop s) := rfl
      have heq := hex2.symm.trans hex
      injection heq with heq
      injection heq with h1 h2
      subst h1
      subst h2
      rcases List.mem_cons.mp ho with rfl | ho2
      · exact absurd hoco (by simp)
      · exact ih (clear_estop s) hs os s1 hrest hno2 o ho2 co hoco

/-- C1: E-STOP supremacy. `apply_estop` sets the estop flag and clears
the active lease, and along any subsequent sequence of controller calls
(ticks, install attempts, estop toggles) in which no `install_lease`
succeeds, every tick returns `ok = false` with an empty `final_by_space`.
A successful install is the only way out, and it requires `clear_estop`
first, since `install_lease` fails while the estop flag is set. -/
theorem c1_estop_supremacy (s0 : ControllerState) (evs : List KEvent)
    (outs : List EvOut) (s1 : ControllerState)
    (hrun : runEvents (apply_estop s0) evs = some (outs, s1))
    (hnoinstall : EvOut.installed true ∉ outs) :
    (apply_estop s0).estop = true ∧ (apply_estop s0).active_lease = none
    ∧ ∀ o ∈ outs, ∀ co, o = EvOut.tick co → co.ok = false ∧ co.final_by_space = [] :=
  ⟨rfl, rfl, runEvents_no_lease evs (apply_estop s0) rfl outs s1 hrun hnoinstall⟩

/-- C1 witness: a concrete run. Start with an installed lease, hit the
E-STOP, then tick, attempt an install while stopped (it fails), clear the
estop, and tick again: both ticks return not-ok with empty final maps. -/
theorem c1_estop_supremacy_witness :
    runEvents (apply_estop ⟨some ⟨1, "L", 0, 10, [], [], [], none, some []⟩, none, false, [], 0⟩)
      [KEvent.tick 1 [], KEvent.install ⟨1, "L", 0, 10, [], [], [], none, some []⟩ 1 none,
        KEvent.estopOff, KEvent.tick 2 []]
      = some ([EvOut.tick ⟨false, "E-STOP active", []⟩, EvOut.installed false, EvOut.admin,
          EvOut.tick ⟨false, "No active lease", []⟩], ⟨none, none, false, [], 0⟩)
    ∧ EvOut.installed true ∉ [EvOut.tick (⟨false, "E-STOP active", []⟩ : ControllerOutput),
        EvOut.installed false, EvOut.admin, EvOut.tick ⟨false, "No active lease", []⟩]
    ∧ ∀ o ∈ [EvOut.tick (⟨false, "E-STOP active", []⟩ : ControllerOutput),
        EvOut.installed false, EvOut.admin, EvOut.tick ⟨false, "No active lease", []⟩],
        ∀ co, o = EvOut.tick co → co.ok = false ∧ co.final_by_space = [] :=
  ⟨by decide, by decide,
    (c1_estop_supremacy ⟨some ⟨1, "L", 0, 10, [], [], [], none, some []⟩, none, false, [], 0⟩
      [KEvent.tick 1 [], KEvent.install ⟨1, "L", 0, 10, [], [], [], none, some []⟩ 1 none,
        KEvent.estopOff, KEvent.tick 2 []]
      [EvOut.tick ⟨false, "E-STOP active", []⟩, EvOut.installed false, EvOut.admin,
        EvOut.tick ⟨false, "No active lease", []⟩]
      ⟨none, none, false, [], 0⟩ (by decide) (by decide)).2.2⟩

/-- C6: failed-tick atomicity. Whenever `step_controller_multi` returns,
a not-ok output carries an empty final map and leaves `last_commands` and
`last_tick_t` untouched, the state being either unchanged or — exactly
when the active lease is expired at `now_t` — the same state with the
lease cleared; an ok output is accompanied by `last_commands` set to the
final map and `last_tick_t` set to `now_t`. -/
theorem c6_failed_tick_atomicity (s : ControllerState) (now_t : ℚ)
    (proposals : List MaskedCommand) (out : ControllerOutput) (s' : ControllerState)
    (h : step_controller_multi s now_t proposals = some (out, s')) :
    (out.ok = false →
      out.final_by_space = []
      ∧ s'.last_commands = s.last_commands
      ∧ s'.last_tick_t = s.last_tick_t
      ∧ (s' = s ∨ ∃ lease, s.active_lease = some lease ∧ lease_active lease now_t = false
          ∧ s' = { s with active_lease := none }))
    ∧ (out.ok = true →
      s'.last_commands = out.final_by_space ∧ s'.last_tick_t = now_t) := by
  unfold step_controller_multi at h
  split at h
  · injection h with h1
    injection h1 with h1 h2
    subst h1
    subst h2
    exact ⟨fun _ => ⟨rfl, rfl, rfl, Or.inl rfl⟩, fun hT => Bool.noConfusion hT⟩
  split at h
  · injection h with h1
    injection h1 with h1 h2
    subst h1
    subst h2
    exact ⟨fun _ => ⟨rfl, rfl, rfl, Or.inl rfl⟩, fun hT => Bool.noConfusion hT⟩
  rename_i lease hlease
  split at h
  · rename_i hexp
    injection h with h1
    injection h1 with h1 h2
    subst h1
    subst h2
    exact ⟨fun _ => ⟨rfl, rfl, rfl, Or.inr ⟨lease, hlease, hexp, rfl⟩⟩,
      fun hT => Bool.noConfusion hT⟩
  split at h
  · injection h with h1
    injection h1 with h1 h2
    subst h1
    subst h2
    exact ⟨fun _ => ⟨rfl, rfl, rfl, Or.inl rfl⟩, fun hT => Bool.noConfusion hT⟩
  split at h
  · exact Option.noConfusion h
  · injection h with h1
    injection h1 with h1 h2
    subst h1
    subst h2
    exact ⟨fun _ => ⟨rfl, rfl, rfl, Or.inl rfl⟩, fun hT => Bool.noConfusion hT⟩
  split at h
  · injection h with h1
    injection h1 with h1 h2
    subst h1
    subst h2
    exact ⟨fun _ => ⟨rfl, rfl, rfl, Or.inl rfl⟩, fun hT => Bool.noConfusion hT⟩
  · injection h with h1
    injection h1 with h1 h2
    subst h1
    subst h2
    exact ⟨fun hF => Bool.noConfusion hF, fun _ => ⟨rfl, rfl⟩⟩

/-- C6 witness: the atomicity theorem applied to a tick rejected by the
E-STOP flag. -/
theorem c6_failed_tick_atomicity_witness :
    step_controller_multi ⟨none, none, true, [], 0⟩ 1 []
      = some (⟨false, "E-STOP active", []⟩, ⟨none, none, true, [], 0⟩)
    ∧ ((⟨false, "E-STOP active", []⟩ : ControllerOutput).final_by_space = []
      ∧ (⟨none, none, true, [], (0 : ℚ)⟩ : ControllerState).last_commands
          = (⟨none, none, true, [], (0 : ℚ)⟩ : ControllerState).last_commands
      ∧ (⟨none, none, true, [], (0 : ℚ)⟩ : ControllerState).last_tick_t
          = (⟨none, none, true, [], (0 : ℚ)⟩ : ControllerState).last_tick_t
      ∧ ((⟨none, none, true, [], (0 : ℚ)⟩ : ControllerState)
            = (⟨none, none, true, [], (0 : ℚ)⟩ : ControllerState)
        ∨ ∃ lease, (⟨none, none, true, [], (0 : ℚ)⟩ : ControllerState).active_lease = some lease
            ∧ lease_active lease 1 = false
            ∧ (⟨none, none, true, [], (0 : ℚ)⟩ : ControllerState)
              = { (⟨none, none, true, [], (0 : ℚ)⟩ : ControllerState) with active_lease := none })) :=
  ⟨by decide,
    (c6_failed_tick_atomicity ⟨none, none, true, [], 0⟩ 1 [] ⟨false, "E-STOP active", []⟩
      ⟨none, none, true, [], 0⟩ (by decide)).1 rfl⟩

theorem mkRat_twenty_thousandth : (mkRat 1 20000 : ℚ) = 1 / 20000 := by
  norm_num [mkRat, Rat.normalize]

/-- C5 (counterexample to the claim as stated): with
`now_t - last_tick_t = 1/20000`, the dt computed by the tick is `1/20000`,
which is strictly below the claimed lower clamp `0.001`; running a full
tick with an installed envelope carrying acceleration limits on exactly
this dt is rejected with the BAD_DT reason of the dynamics clamp. -/
theorem c5_dt_claim_counterexample :
    dtStep (mkRat 1 20000) 0 = mkRat 1 20000
    ∧ ¬ (mkRat 1 1000 ≤ mkRat 1 20000)
    ∧ step_controller_multi
        ⟨some ⟨1, "L", 0, 100, [-10], [10], [10], none, some [("arm", "reach")]⟩,
          some ⟨"e", "lab", 0, 0, [-10], [10], [10], (0, 0, 0), (0, 0, 0), false, false, [], [],
            some [1], none⟩,
          false, [], 0⟩ (mkRat 1 20000)
        [⟨ControlSpace.ARM, CommandKind.JOINT_VELOCITY, [0], [1], "reach"⟩]
      = some (⟨false, "Dyn Clamp reject arm: Invalid time delta", []⟩,
          ⟨some ⟨1, "L", 0, 100, [-10], [10], [10], none, some [("arm", "reach")]⟩,
            some ⟨"e", "lab", 0, 0, [-10], [10], [10], (0, 0, 0), (0, 0, 0), false, false, [], [],
              some [1], none⟩,
            false, [], 0⟩) := by
  refine ⟨?_, ?_, ?_⟩
  · rw [dtStep, mkRat_twenty_thousandth, mkRat_tenth]
    norm_num
  · rw [mkRat_thousandth, mkRat_twenty_thousandth]
    norm_num
  · norm_num +decide [step_controller_multi, arbitrate_multi, arbAux, arbSpace, sortedSpaces,
      spaceValue, dictGet, clampSpaces, clamp_masked_command_to_lease, clamp_dynamics,
      dtStep, lastGet, lease_active, conflictCheck, clampQ, maxQ, minQ, getQ, proposalsIn,
      List.filter, List.any, mkRat_twenty_thousandth, mkRat_ten_thousandth, mkRat_tenth]

/-- C5 (amended): the tick dt always lies in `(0, 0.1]`; it lies in
`[0.001, 0.1]` whenever `now_t - last_tick_t` is non-positive or at least
`0.001`; and it is small enough for the dynamics clamp to reject with
BAD_DT exactly when `0 < now_t - last_tick_t ≤ 0.0001` (amendment: the
code lifts dt to `0.001` only when `now_t - last_tick_t ≤ 0`, so a small
positive delta passes through unclamped and BAD_DT is reachable). -/
theorem c5_dt_amended (now_t last_tick_t : ℚ) :
    (0 < dtStep now_t last_tick_t ∧ dtStep now_t last_tick_t ≤ mkRat 1 10)
    ∧ ((now_t - last_tick_t ≤ 0 ∨ mkRat 1 1000 ≤ now_t - last_tick_t) →
        mkRat 1 1000 ≤ dtStep now_t last_tick_t)
    ∧ (dtStep now_t last_tick_t ≤ mkRat 1 10000 ↔
        (0 < now_t - last_tick_t ∧ now_t - last_tick_t ≤ mkRat 1 10000)) := by
  rw [dtStep, mkRat_tenth, mkRat_thousandth, mkRat_ten_thousandth]
  split_ifs with h1 h2
  · refine ⟨⟨by norm_num, by norm_num⟩, fun _ => le_refl _, ?_⟩
    constructor
    · intro hle
      exfalso
      norm_num at hle
    · rintro ⟨hpos, _⟩
      exfalso
      linarith
  · refine ⟨⟨by norm_num, le_refl _⟩, fun _ => by norm_num, ?_⟩
    constructor
    · intro hle
      exfalso
      norm_num at hle
    · rintro ⟨_, hsm⟩
      exfalso
      linarith
  · refine ⟨⟨not_le.mp h1, not_lt.mp h2⟩, ?_, ?_⟩
    · rintro (hc | hc)
      · exact absurd hc h1
      · exact hc
    · exact ⟨fun hle => ⟨not_le.mp h1, hle⟩, fun p => p.2⟩

/-- C5 witness: the amended dt theorem applied at `now_t = 1`,
`last_tick_t = 0`. -/
theorem c5_dt_amended_witness : mkRat 1 1000 ≤ dtStep 1 0 :=
  (c5_dt_amended 1 0).2.1 (Or.inr (by rw [mkRat_thousandth]; norm_num))

theorem mem_sortedSpaces (s : ControlSpace) : s ∈ sortedSpaces := by
  cases s <;> decide

theorem safetyIn_sub (proposals : List MaskedCommand) (s : ControlSpace) :
    safetyIn proposals s = (proposalsIn proposals s).filter (fun p => decide (p.source = "safety")) :=
  rfl

theorem arbSpace_empty (pa : List (String × String)) (proposals : List MaskedCommand)
    (s : ControlSpace) (h : proposalsIn proposals s = []) :
    arbSpace pa proposals s = Except.ok none := by
  unfold arbSpace
  rw [h]

theorem arbSpace_inv (pa : List (String × String)) (proposals : List MaskedCommand)
    (s : ControlSpace) (ropt : Option MaskedCommand)
    (h : arbSpace pa proposals s = Except.ok ropt) :
    (proposalsIn proposals s = [] ∧ ropt = none)
    ∨ (∃ p, safetyIn proposals s = [p] ∧ ropt = some p)
    ∨ (proposalsIn proposals s ≠ [] ∧ safetyIn proposals s = []
        ∧ ∃ primary, dictGet pa (spaceValue s) = some primary
        ∧ ((eligibleIn proposals s primary = [] ∧ ropt = none)
          ∨ (∃ p, eligibleIn proposals s primary = [p] ∧ ropt = some p))) := by
  unfold arbSpace at h
  cases hps : proposalsIn proposals s with
  | nil =>
    rw [hps] at h
    injection h with h
    exact Or.inl ⟨rfl, h.symm⟩
  | cons q qs =>
    rw [hps] at h
    dsimp only at h
    have hsafety : safetyIn proposals s = (q :: qs).filter (fun p => decide (p.source = "safety")) := by
      rw [safetyIn_sub, hps]
    cases hsf : (q :: qs).filter (fun p => decide (p.source = "safety")) with
    | nil =>
      rw [hsf] at h
      dsimp only at h
      cases hpg : dictGet pa (spaceValue s) with
      | none =>
        rw [hpg] at h
        exact Except.noConfusion h
      | some primary =>
        rw [hpg] at h
        dsimp only at h
        have helig : eligibleIn proposals s primary = (q :: qs).filter (fun p => decide (p.source = primary)) := by
          unfold eligibleIn
          rw [hps]
        cases hel : (q :: qs).filter (fun p => decide (p.source = primary)) with
        | nil =>
          rw [hel] at h
          dsimp only at h
          injection h with h
          refine Or.inr (Or.inr ⟨by simp [hps], by rw [hsafety, hsf], primary, rfl, Or.inl ⟨by rw [helig, hel], h.symm⟩⟩)
        | cons e es =>
          cases es with
          | nil =>
            rw [hel] at h
            dsimp only at h
            injection h with h
            exact Or.inr (Or.inr ⟨by simp [hps], by rw [hsafety, hsf], primary, rfl,
              Or.inr ⟨e, by rw [helig, hel], h.symm⟩⟩)
          | cons e2 es2 =>
            rw [hel] at h
            dsimp only at h
            exact Except.noConfusion h
    | cons f fs =>
      cases fs with
      | nil =>
        rw [hsf] at h
        dsimp only at h
        injection h with h
        exact Or.inr (Or.inl ⟨f, by rw [hsafety, hsf], h.symm⟩)
      | cons f2 fs2 =>
        rw [hsf] at h
        dsimp only at h
        exact Except.noConfusion h

theorem arbSpace_safety_ambiguous (pa : List (String × String))
    (proposals : List MaskedCommand) (s : ControlSpace)
    (h : 2 ≤ (safetyIn proposals s).length) :
    ∃ e, arbSpace pa proposals s = Except.error e := by
  unfold arbSpace
  cases hps : proposalsIn proposals s with
  | nil =>
    rw [safetyIn_sub, hps] at h
    simp at h
  | cons q qs =>
    have hsafety : safetyIn proposals s = (q :: qs).filter (fun p => decide (p.source = "safety")) := by
      rw [safetyIn_sub, hps]
    rw [hsafety] at h
    dsimp only
    refine ⟨"Ambiguous safety proposals in " ++ spaceValue s, ?_⟩
    cases hsf : (q :: qs).filter (fun p => decide (p.source = "safety")) with
    | nil =>
      rw [hsf] at h
      simp at h
    | cons f fs =>
      cases fs with
      | nil =>
        rw [hsf] at h
        simp at h
      | cons f2 fs2 =>
        rfl

theorem arbSpace_no_primary (pa : List (String × String))
    (proposals : List MaskedCommand) (s : ControlSpace)
    (hne : proposalsIn proposals s ≠ []) (hsf : safetyIn proposals s = [])
    (hpg : dictGet pa (spaceValue s) = none) :
    ∃ e, arbSpace pa proposals s = Except.error e := by
  unfold arbSpace
  cases hps : proposalsIn proposals s with
  | nil => exact absurd hps hne
  | cons q qs =>
    have hsafety : (q :: qs).filter (fun p => decide (p.source = "safety")) = [] := by
      rw [safetyIn_sub, hps] at hsf
      exact hsf
    dsimp only
    refine ⟨"No primary authority declared for " ++ spaceValue s, ?_⟩
    rw [hsafety, hpg]

theorem arbSpace_primary_ambiguous (pa : List (String × String))
    (proposals : List MaskedCommand) (s : ControlSpace) (primary : String)
    (hsf : safetyIn proposals s = []) (hpg : dictGet pa (spaceValue s) = some primary)
    (h : 2 ≤ (eligibleIn proposals s primary).length) :
    ∃ e, arbSpace pa proposals s = Except.error e := by
  unfold arbSpace
  cases hps : proposalsIn proposals s with
  | nil =>
    unfold eligibleIn at h
    rw [hps] at h
    simp at h
  | cons q qs =>
    have hsafety : (q :: qs).filter (fun p => decide (p.source = "safety")) = [] := by
      rw [safetyIn_sub, hps] at hsf
      exact hsf
    have helig : eligibleIn proposals s primary = (q :: qs).filter (fun p => decide (p.source = primary)) := by
      unfold eligibleIn
      rw [hps]
    dsimp only
    refine ⟨"Ambiguous primary proposals in " ++ spaceValue s, ?_⟩
    rw [hsafety, hpg]
    dsimp only
    rw [helig] at h
    cases hel : (q :: qs).filter (fun p => decide (p.source = primary)) with
    | nil =>
      rw [hel] at h
      simp at h
    | cons e es =>
      cases es with
      | nil =>
        rw [hel] at h
        simp at h
      | cons e2 es2 =>
        rfl

theorem lastGet_cons_self (k : ControlSpace) (v : MaskedCommand)
    (m : List (ControlSpace × MaskedCommand)) : lastGet ((k, v) :: m) k = some v := by
  simp [lastGet, List.find?]

theorem lastGet_cons_ne (k : ControlSpace) (v : MaskedCommand)
    (m : List (ControlSpace × MaskedCommand)) (s : ControlSpace) (h : s ≠ k) :
    lastGet ((k, v) :: m) s = lastGet m s := by
  simp [lastGet, List.find?, Ne.symm h]

theorem arbAux_ok_char (pa : List (String × String)) (proposals : List MaskedCommand) :
    ∀ (l : List ControlSpace), l.Nodup →
    ∀ (out : List (ControlSpace × MaskedCommand)),
    arbAux pa proposals l = Except.ok out →
    (∀ s ∈ l, ∃ ropt, arbSpace pa proposals s = Except.ok ropt ∧ lastGet out s = ropt)
    ∧ (∀ s, s ∉ l → lastGet out s = none) := by
  intro l
  induction l with
  | nil =>
    intro _ out h
    simp only [arbAux] at h
    injection h with h
    subst h
    exact ⟨by intro s hs; simp at hs, fun s _ => rfl⟩
  | cons s0 rest ih =>
    intro hnd out h
    have hnd2 := (List.nodup_cons.mp hnd).2
    have hs0nr := (List.nodup_cons.mp hnd).1
    simp only [arbAux] at h
    cases harb : arbSpace pa proposals s0 with
    | error e =>
      rw [harb] at h
      exact Except.noConfusion h
    | ok ropt0 =>
      rw [harb] at h
      cases ropt0 with
      | none =>
        dsimp only at h
        obtain ⟨ih1, ih2⟩ := ih hnd2 out h
        refine ⟨?_, ?_⟩
        · intro s hs
          rcases List.mem_cons.mp hs with rfl | hs2
          · exact ⟨none, harb, ih2 s hs0nr⟩
          · exact ih1 s hs2
        · intro s hs
          exact ih2 s (fun hm => hs (List.mem_cons_of_mem _ hm))
      | some p =>
        dsimp only at h
        cases haux : arbAux pa proposals rest with
        | error e =>
          rw [haux] at h
          exact Except.noConfusion h
        | ok out2 =>
          rw [haux] at h
          dsimp only at h
          injection h with h
          subst h
          obtain ⟨ih1, ih2⟩ := ih hnd2 out2 haux
          refine ⟨?_, ?_⟩
          · intro s hs
            rcases List.mem_cons.mp hs with rfl | hs2
            · exact ⟨some p, harb, lastGet_cons_self s p out2⟩
            · have hne : s ≠ s0 := fun heq => hs0nr (heq ▸ hs2)
              obtain ⟨ropt, ha, hl⟩ := ih1 s hs2
              exact ⟨ropt, ha, by rw [lastGet_cons_ne s0 p out2 s hne, hl]⟩
          · intro s hs
            have hne : s ≠ s0 := fun heq => hs (heq ▸ List.mem_cons_self s0 rest)
            rw [lastGet_cons_ne s0 p out2 s hne]
            exact ih2 s (fun hm => hs (List.mem_cons_of_mem _ hm))

theorem arbAux_error_of_mem (pa : List (String × String)) (proposals : List MaskedCommand) :
    ∀ (l : List ControlSpace) (s : ControlSpace), s ∈ l →
    (∃ e0, arbSpace pa proposals s = Except.error e0) →
    ∃ e, arbAux pa proposals l = Except.error e := by
  intro l
  induction l with
  | nil =>
    intro s hs
    simp at hs
  | cons s0 rest ih =>
    intro s hs ⟨e0, he0⟩
    simp only [arbAux]
    rcases List.mem_cons.mp hs with rfl | hs2
    · rw [he0]
      exact ⟨e0, rfl⟩
    · cases harb : arbSpace pa proposals s0 with
      | error e => exact ⟨e, rfl⟩
      | ok ropt0 =>
        obtain ⟨e, he⟩ := ih s hs2 ⟨e0, he0⟩
        cases ropt0 with
        | none => exact ⟨e, he⟩
        | some p =>
          rw [he]
          exact ⟨e, rfl⟩

/-- C7: the arbiter's per-space selection rule. With a primary-authority
map present: on success, every space with no proposals is absent from the
output; a space with safety proposals has exactly one and it is selected
regardless of primary authority; otherwise the space's entry in the map
exists and the unique primary-sourced proposal is selected, zero eligible
leaving the space absent. Two or more safety proposals in a space, a
missing primary-authority entry for a space with proposals and no safety
proposal, two or more primary-sourced proposals, and an empty selection
each fail the whole decision. -/
theorem c7_arbiter_selection (lease : CapabilityLease) (pa : List (String × String))
    (proposals : List MaskedCommand) (d : ArbiterDecision)
    (hpa : lease.primary_authority = some pa)
    (hd : arbitrate_multi lease proposals = d) :
    (d.ok = true →
      d.selected_by_space ≠ []
      ∧ ∀ s : ControlSpace,
          (proposalsIn proposals s = [] → lastGet d.selected_by_space s = none)
          ∧ (safetyIn proposals s ≠ [] →
              ∃ p, safetyIn proposals s = [p] ∧ lastGet d.selected_by_space s = some p)
          ∧ (proposalsIn proposals s ≠ [] → safetyIn proposals s = [] →
              ∃ primary, dictGet pa (spaceValue s) = some primary
              ∧ (eligibleIn proposals s primary = [] → lastGet d.selected_by_space s = none)
              ∧ (∀ p, eligibleIn proposals s primary = [p] →
                  lastGet d.selected_by_space s = some p)))
    ∧ ((∃ s, 2 ≤ (safetyIn proposals s).length) → d.ok = false)
    ∧ ((∃ s, proposalsIn proposals s ≠ [] ∧ safetyIn proposals s = []
        ∧ dictGet pa (spaceValue s) = none) → d.ok = false)
    ∧ ((∃ s primary, safetyIn proposals s = [] ∧ dictGet pa (spaceValue s) = some primary
        ∧ 2 ≤ (eligibleIn proposals s primary).length) → d.ok = false)
    ∧ ((∀ s, lastGet d.selected_by_space s = none) → d.ok = false) := by
  unfold arbitrate_multi at hd
  rw [hpa] at hd
  dsimp only at hd
  cases haux : arbAux pa proposals sortedSpaces with
  | error e =>
    rw [haux] at hd
    dsimp only at hd
    subst hd
    exact ⟨fun hok => Bool.noConfusion hok, fun _ => rfl, fun _ => rfl, fun _ => rfl, fun _ => rfl⟩
  | ok out =>
    rw [haux] at hd
    dsimp only at hd
    by_cases hemp : out.isEmpty
    · rw [if_pos hemp] at hd
      subst hd
      exact ⟨fun hok => Bool.noConfusion hok, fun _ => rfl, fun _ => rfl, fun _ => rfl, fun _ => rfl⟩
    · rw [if_neg hemp] at hd
      subst hd
      have hndss : sortedSpaces.Nodup := by decide
      obtain ⟨hchar, _⟩ := arbAux_ok_char pa proposals sortedSpaces hndss out haux
      have hchar2 : ∀ s : ControlSpace, ∃ ropt,
          arbSpace pa proposals s = Except.ok ropt ∧ lastGet out s = ropt :=
        fun s => hchar s (mem_sortedSpaces s)
      refine ⟨?_, ?_, ?_, ?_, ?_⟩
      · intro _
        refine ⟨fun hnil => hemp (by rw [show out = [] from hnil]; rfl), ?_⟩
        intro s
        obtain ⟨ropt, harb, hlast⟩ := hchar2 s
        refine ⟨?_, ?_, ?_⟩
        · intro hps
          rw [arbSpace_empty pa proposals s hps] at harb
          injection harb with harb
          rw [hlast, ← harb]
        · intro hsne
          rcases arbSpace_inv pa proposals s ropt harb with ⟨hps, _⟩ | ⟨p, hsp, hropt⟩ | ⟨_, hsf, _⟩
          · exfalso
            apply hsne
            rw [safetyIn_sub, hps]
            rfl
          · exact ⟨p, hsp, by rw [hlast, hropt]⟩
          · exact absurd hsf hsne
        · intro hpne hsf
          rcases arbSpace_inv pa proposals s ropt harb with ⟨hps, _⟩ | ⟨p, hsp, _⟩ | ⟨_, _, primary, hpg, hsub⟩
          · exact absurd hps hpne
          · rw [hsf] at hsp
            exact List.noConfusion hsp
          · refine ⟨primary, hpg, ?_, ?_⟩
            · intro helnil
              rcases hsub with ⟨_, hropt⟩ | ⟨q, helq, _⟩
              · rw [hlast, hropt]
              · rw [helnil] at helq
                exact List.noConfusion helq
            · intro p hp
              rcases hsub with ⟨helnil, _⟩ | ⟨q, helq, hropt⟩
              · rw [hp] at helnil
                exact List.noConfusion helnil
              · rw [hp] at helq
                injection helq with hq
                subst hq
                rw [hlast, hropt]
      · rintro ⟨s, hs⟩
        exfalso
        obtain ⟨e0, he0⟩ := arbSpace_safety_ambiguous pa proposals s hs
        obtain ⟨ropt, harb, _⟩ := hchar2 s
        rw [he0] at harb
        exact Except.noConfusion harb
      · rintro ⟨s, hne, hsf, hpg⟩
        exfalso
        obtain ⟨e0, he0⟩ := arbSpace_no_primary pa proposals s hne hsf hpg
        obtain ⟨ropt, harb, _⟩ := hchar2 s
        rw [he0] at harb
        exact Except.noConfusion harb
      · rintro ⟨s, primary, hsf, hpg, hlen⟩
        exfalso
        obtain ⟨e0, he0⟩ := arbSpace_primary_ambiguous pa proposals s primary hsf hpg hlen
        obtain ⟨ropt, harb, _⟩ := hchar2 s
        rw [he0] at harb
        exact Except.noConfusion harb
      · intro hall
        exfalso
        cases hout : out with
        | nil =>
          rw [hout] at hemp
          exact hemp rfl
        | cons hd0 tl0 =>
          obtain ⟨k0, v0⟩ := hd0
          have := hall k0
          rw [hout, lastGet_cons_self k0 v0 tl0] at this
          exact Option.noConfusion this

/-- C7 witness: the arbiter selection theorem applied to one arm proposal
under the authority map `{"arm": "reach"}`. -/
theorem c7_arbiter_selection_witness :
    arbitrate_multi ⟨1, "L", 0, 10, [], [], [], none, some [("arm", "reach")]⟩
      [⟨ControlSpace.ARM, CommandKind.JOINT_VELOCITY, [0], [1], "reach"⟩]
      = ⟨true, "OK", [(ControlSpace.ARM,
          ⟨ControlSpace.ARM, CommandKind.JOINT_VELOCITY, [0], [1], "reach"⟩)]⟩
    ∧ (⟨true, "OK", [(ControlSpace.ARM,
          (⟨ControlSpace.ARM, CommandKind.JOINT_VELOCITY, [0], [1], "reach"⟩ : MaskedCommand))]⟩
        : ArbiterDecision).selected_by_space ≠ [] :=
  ⟨by decide,
    ((c7_arbiter_selection ⟨1, "L", 0, 10, [], [], [], none, some [("arm", "reach")]⟩
      [("arm", "reach")]
      [⟨ControlSpace.ARM, CommandKind.JOINT_VELOCITY, [0], [1], "reach"⟩]
      ⟨true, "OK", [(ControlSpace.ARM,
        ⟨ControlSpace.ARM, CommandKind.JOINT_VELOCITY, [0], [1], "reach"⟩)]⟩
      rfl (by decide)).1 rfl).1⟩

theorem clamp_lease_mask (cmd : MaskedCommand) (lease : CapabilityLease)
    (out : MaskedCommand) (res : SafetyResult)
    (h : clamp_masked_command_to_lease cmd lease = (some out, res)) :
    out.dof_mask = cmd.dof_mask := by
  unfold clamp_masked_command_to_lease at h
  split at h
  · exact absurd (congrArg Prod.fst h) (by simp)
  split at h
  · exact absurd (congrArg Prod.fst h) (by simp)
  split at h
  · injection h with h1 h2
    injection h1 with h1
    rw [← h1]
  · injection h with h1 h2
    injection h1 with h1
    rw [← h1]
  · split at h
    · exact absurd (congrArg Prod.fst h) (by simp)
    split at h
    · exact absurd (congrArg Prod.fst h) (by simp)
    injection h with h1 h2
    injection h1 with h1
    rw [← h1]

theorem clamp_dynamics_mask (cmd : MaskedCommand) (prev_cmd : Option MaskedCommand)
    (envelope : Envelope) (dt : ℚ) (out : MaskedCommand) (res : SafetyResult)
    (h : clamp_dynamics cmd prev_cmd envelope dt = some (some out, res)) :
    out.dof_mask = cmd.dof_mask := by
  unfold clamp_dynamics at h
  split at h
  · injection h with h1
    injection h1 with h1 h2
    injection h1 with h1
    rw [← h1]
  split at h
  · injection h with h1
    injection h1 with h1 h2
    exact absurd h1 (by simp)
  split at h
  · injection h with h1
    injection h1 with h1 h2
    injection h1 with h1
    rw [← h1]
  split at h
  · injection h with h1
    injection h1 with h1 h2
    injection h1 with h1
    rw [← h1]
  split at h
  · split at h
    · exact Option.noConfusion h
    · injection h with h1
      injection h1 with h1 h2
      injection h1 with h1
      rw [← h1]
  · injection h with h1
    injection h1 with h1 h2
    injection h1 with h1
    rw [← h1]

theorem clampSpaces_masks (lease : CapabilityLease) (env : Option Envelope)
    (last_commands : List (ControlSpace × MaskedCommand)) (dt : ℚ) :
    ∀ (sel final : List (ControlSpace × MaskedCommand)),
    clampSpaces lease env last_commands dt sel = some (Except.ok final) →
    ∀ pb ∈ final, ∃ pa0 ∈ sel, pb.2.dof_mask = pa0.2.dof_mask := by
  intro sel
  induction sel with
  | nil =>
    intro final h pb hpb
    simp only [clampSpaces] at h
    injection h with h1
    injection h1 with h1
    subst h1
    simp at hpb
  | cons hd0 rest ih =>
    intro final h pb hpb
    obtain ⟨space, cmd⟩ := hd0
    simp only [clampSpaces] at h
    cases habs : clamp_masked_command_to_lease cmd lease with
    | mk copt sres =>
      rw [habs] at h
      cases copt with
      | none =>
        dsimp only at h
        injection h with h1
        exact Except.noConfusion h1
      | some clamped_abs =>
        dsimp only at h
        split at h
        · injection h with h1
          exact Except.noConfusion h1
        cases env with
        | some envelope =>
          dsimp only at h
          cases hdyn : clamp_dynamics clamped_abs (lastGet last_commands space) envelope dt with
          | none =>
            rw [hdyn] at h
            exact Option.noConfusion h
          | some r =>
            rw [hdyn] at h
            obtain ⟨dopt, dres⟩ := r
            cases dopt with
            | none =>
              dsimp only at h
              injection h with h1
              exact Except.noConfusion h1
            | some clamped_dyn =>
              dsimp only at h
              split at h
              · injection h with h1
                exact Except.noConfusion h1
              cases hrest : clampSpaces lease (some envelope) last_commands dt rest with
              | none =>
                rw [hrest] at h
                exact Option.noConfusion h
              | some rr =>
                rw [hrest] at h
                cases rr with
                | error e =>
                  dsimp only at h
                  injection h with h1
                  exact Except.noConfusion h1
                | ok outr =>
                  dsimp only at h
                  injection h with h1
                  injection h1 with h1
                  subst h1
                  rcases List.mem_cons.mp hpb with rfl | hpb2
                  · refine ⟨(space, cmd), List.mem_cons_self _ _, ?_⟩
                    have h1 := clamp_dynamics_mask clamped_abs (lastGet last_commands space)
                      envelope dt clamped_dyn dres hdyn
                    have h2 := clamp_lease_mask cmd lease clamped_abs sres habs
                    dsimp only
                    rw [h1, h2]
                  · obtain ⟨pa0, hpa0, hm⟩ := ih outr hrest pb hpb2
                    exact ⟨pa0, List.mem_cons_of_mem _ hpa0, hm⟩
        | none =>
          dsimp only at h
          cases hrest : clampSpaces lease none last_commands dt rest with
          | none =>
            rw [hrest] at h
            exact Option.noConfusion h
          | some rr =>
            rw [hrest] at h
            cases rr with
            | error e =>
              dsimp only at h
              injection h with h1
              exact Except.noConfusion h1
            | ok outr =>
              dsimp only at h
              injection h with h1
              injection h1 with h1
              subst h1
              rcases List.mem_cons.mp hpb with rfl | hpb2
              · refine ⟨(space, cmd), List.mem_cons_self _ _, ?_⟩
                have h2 := clamp_lease_mask cmd lease clamped_abs sres habs
                dsimp only
                rw [h2]
              · obtain ⟨pa0, hpa0, hm⟩ := ih outr hrest pb hpb2
                exact ⟨pa0, List.mem_cons_of_mem _ hpa0, hm⟩

theorem arbSpace_sel_mem (pa : List (String × String)) (proposals : List MaskedCommand)
    (s : ControlSpace) (p : MaskedCommand)
    (h : arbSpace pa proposals s = Except.ok (some p)) : p ∈ proposals := by
  rcases arbSpace_inv pa proposals s (some p) h with ⟨_, hro⟩ | ⟨q, hq, hro⟩ | ⟨_, _, primary, _, hsub⟩
  · exact Option.noConfusion hro
  · injection hro with hro
    subst hro
    have hmem : p ∈ safetyIn proposals s := by
      rw [hq]
      exact List.mem_singleton_self p
    exact List.mem_of_mem_filter (List.mem_of_mem_filter hmem)
  · rcases hsub with ⟨_, hro⟩ | ⟨q, hq, hro⟩
    · exact Option.noConfusion hro
    · injection hro with hro
      subst hro
      have hmem : p ∈ eligibleIn proposals s primary := by
        rw [hq]
        exact List.mem_singleton_self p
      exact List.mem_of_mem_filter (List.mem_of_mem_filter hmem)

theorem arbAux_sel_mem (pa : List (String × String)) (proposals : List MaskedCommand) :
    ∀ (l : List ControlSpace) (out : List (ControlSpace × MaskedCommand)),
    arbAux pa proposals l = Except.ok out → ∀ pr ∈ out, pr.2 ∈ proposals := by
  intro l
  induction l with
  | nil =>
    intro out h pr hpr
    simp only [arbAux] at h
    injection h with h
    subst h
    simp at hpr
  | cons s0 rest ih =>
    intro out h pr hpr
    simp only [arbAux] at h
    cases harb : arbSpace pa proposals s0 with
    | error e =>
      rw [harb] at h
      exact Except.noConfusion h
    | ok ropt =>
      rw [harb] at h
      cases ropt with
      | none =>
        dsimp only at h
        exact ih out h pr hpr
      | some p =>
        dsimp only at h
        cases haux : arbAux pa proposals rest with
        | error e =>
          rw [haux] at h
          exact Except.noConfusion h
        | ok out2 =>
          rw [haux] at h
          dsimp only at h
          injection h with h
          subst h
          rcases List.mem_cons.mp hpr with rfl | hpr2
          · exact arbSpace_sel_mem pa proposals s0 p harb
          · exact ih out2 haux pr hpr2

theorem arbitrate_sel_mem (lease : CapabilityLease) (proposals : List MaskedCommand)
    (d : ArbiterDecision) (hd : arbitrate_multi lease proposals = d) :
    ∀ pr ∈ d.selected_by_space, pr.2 ∈ proposals := by
  unfold arbitrate_multi at hd
  cases hpa : lease.primary_authority with
  | none =>
    rw [hpa] at hd
    dsimp only at hd
    subst hd
    intro pr hpr
    simp at hpr
  | some pa =>
    rw [hpa] at hd
    dsimp only at hd
    cases haux : arbAux pa proposals sortedSpaces with
    | error e =>
      rw [haux] at hd
      dsimp only at hd
      subst hd
      intro pr hpr
      simp at hpr
    | ok out =>
      rw [haux] at hd
      dsimp only at hd
      split at hd
      · subst hd
        intro pr hpr
        simp at hpr
      · subst hd
        exact arbAux_sel_mem pa proposals sortedSpaces out haux

theorem conflictCheck_nodup :
    ∀ (l : List (ControlSpace × MaskedCommand)) (used : List Nat),
    conflictCheck used l = none → used.Nodup →
    (∀ pr ∈ l, pr.2.dof_mask.Nodup) →
    (used ++ (l.map (fun pr => pr.2.dof_mask)).join).Nodup := by
  intro l
  induction l with
  | nil =>
    intro used _ hu _
    simpa using hu
  | cons hd0 rest ih =>
    intro used h hu hm
    obtain ⟨space, cmd⟩ := hd0
    simp only [conflictCheck] at h
    cases hf : cmd.dof_mask.filter (fun i => decide (i ∈ used)) with
    | cons o os =>
      rw [hf] at h
      exact Option.noConfusion h
    | nil =>
      rw [hf] at h
      dsimp only at h
      have hdisj : ∀ i ∈ cmd.dof_mask, i ∉ used := by
        intro i hi hmem
        have : i ∈ cmd.dof_mask.filter (fun i => decide (i ∈ used)) :=
          List.mem_filter.mpr ⟨hi, by simpa using hmem⟩
        rw [hf] at this
        simp at this
      have hnd2 : (used ++ cmd.dof_mask).Nodup := by
        rw [List.nodup_append]
        exact ⟨hu, hm (space, cmd) (List.mem_cons_self _ _), fun a ha hb => hdisj a hb ha⟩
      have := ih (used ++ cmd.dof_mask) h hnd2
        (fun pr hpr => hm pr (List.mem_cons_of_mem _ hpr))
      rw [List.append_assoc] at this
      simpa using this

theorem maskScan_ok (dof_count : Nat) :
    ∀ (mask commanded out : List Nat),
    maskScan dof_count commanded mask = Except.ok out →
    out = commanded ++ mask ∧ (commanded.Nodup → out.Nodup) := by
  intro mask
  induction mask with
  | nil =>
    intro commanded out h
    simp only [maskScan] at h
    injection h with h
    subst h
    exact ⟨(List.append_nil _).symm, fun hc => hc⟩
  | cons i is ih =>
    intro commanded out h
    simp only [maskScan] at h
    split at h
    · exact Except.noConfusion h
    split at h
    · exact Except.noConfusion h
    rename_i hoob hdup
    obtain ⟨heq, hnd⟩ := ih (commanded ++ [i]) out h
    constructor
    · rw [heq, List.append_assoc]
      rfl
    · intro hc
      apply hnd
      rw [List.nodup_append]
      refine ⟨hc, List.nodup_singleton i, ?_⟩
      intro a ha hb
      rw [List.mem_singleton.mp hb] at ha
      exact hdup ha

theorem commandedScan_ok (dof_count : Nat) :
    ∀ (l : List (ControlSpace × MaskedCommand)) (commanded out : List Nat),
    commandedScan dof_count commanded l = Except.ok out →
    out = commanded ++ (l.map (fun pr => pr.2.dof_mask)).join
    ∧ (commanded.Nodup → out.Nodup) := by
  intro l
  induction l with
  | nil =>
    intro commanded out h
    simp only [commandedScan] at h
    injection h with h
    subst h
    exact ⟨by simp, fun hc => hc⟩
  | cons hd0 rest ih =>
    intro commanded out h
    obtain ⟨space, cmd⟩ := hd0
    simp only [commandedScan] at h
    cases hms : maskScan dof_count commanded cmd.dof_mask with
    | error e =>
      rw [hms] at h
      exact Except.noConfusion h
    | ok commanded2 =>
      rw [hms] at h
      dsimp only at h
      obtain ⟨heq2, hnd2⟩ := maskScan_ok dof_count cmd.dof_mask commanded commanded2 hms
      obtain ⟨heq3, hnd3⟩ := ih commanded2 out h
      constructor
      · rw [heq3, heq2, List.append_assoc]
        simp
      · intro hc
        exact hnd3 (hnd2 hc)

/-- C4: conflict-freeness. (1) Whenever a tick returns ok, the union of
the dof_masks in the returned final map has no repeated index, provided
each proposal's mask is duplicate-free (which the MaskedCommand
constructor enforces). (2) The actuator builder returns ok = false
whenever the union of the dof_masks of the selected commands has any
repetition — in particular whenever a DOF index appears in more than one
selected command. -/
theorem c4_conflict_freeness :
    (∀ (s : ControllerState) (now_t : ℚ) (proposals : List MaskedCommand)
        (out : ControllerOutput) (s' : ControllerState),
      (∀ p ∈ proposals, p.dof_mask.Nodup) →
      step_controller_multi s now_t proposals = some (out, s') →
      out.ok = true →
      ((out.final_by_space.map (fun pr => pr.2.dof_mask)).join).Nodup)
    ∧ (∀ (final_by_space : List (ControlSpace × MaskedCommand)) (now_q : List ℚ)
        (dof_count : Nat) (space_dofs : List (ControlSpace × List Nat))
        (hold_policy : HoldPolicy) (allow_safety_torque_stop : Bool),
      ¬ ((final_by_space.map (fun pr => pr.2.dof_mask)).join).Nodup →
      (build_actuator_targets_v2 final_by_space now_q dof_count space_dofs hold_policy
        allow_safety_torque_stop).ok = false) := by
  constructor
  · intro s now_t proposals out s' hmasks hstep hok
    unfold step_controller_multi at hstep
    split at hstep
    · injection hstep with h1
      injection h1 with h1 h2
      subst h1
      exact Bool.noConfusion hok
    split at hstep
    · injection hstep with h1
      injection h1 with h1 h2
      subst h1
      exact Bool.noConfusion hok
    rename_i lease hlease
    split at hstep
    · injection hstep with h1
      injection h1 with h1 h2
      subst h1
      exact Bool.noConfusion hok
    split at hstep
    · injection hstep with h1
      injection h1 with h1 h2
      subst h1
      exact Bool.noConfusion hok
    rename_i reason selected heqArb
    split at hstep
    · exact Option.noConfusion hstep
    · injection hstep with h1
      injection h1 with h1 h2
      subst h1
      exact Bool.noConfusion hok
    rename_i final hclamp
    split at hstep
    · injection hstep with h1
      injection h1 with h1 h2
      subst h1
      exact Bool.noConfusion hok
    rename_i hcc
    injection hstep with h1
    injection h1 with h1 h2
    subst h1
    have hfmasks : ∀ pb ∈ final, pb.2.dof_mask.Nodup := by
      intro pb hpb
      obtain ⟨pa0, hpa0, hm⟩ := clampSpaces_masks lease s.active_envelope s.last_commands
        (dtStep now_t s.last_tick_t) selected final hclamp pb hpb
      have hmem : pa0.2 ∈ proposals :=
        arbitrate_sel_mem lease proposals ⟨true, reason, selected⟩ heqArb pa0 hpa0
      rw [hm]
      exact hmasks pa0.2 hmem
    have := conflictCheck_nodup final [] hcc List.nodup_nil hfmasks
    simpa using this
  · intro final_by_space now_q dof_count space_dofs hold_policy allow_safety_torque_stop hdup
    unfold build_actuator_targets_v2
    split
    · rfl
    split
    · rfl
    split
    · rfl
    split
    · rfl
    split
    · rfl
    split
    · rfl
    split
    · rfl
    rename_i commanded hscan
    exfalso
    obtain ⟨heq, hnd⟩ := commandedScan_ok dof_count final_by_space [] commanded hscan
    exact hdup (by simpa [heq] using hnd List.nodup_nil)

/-- C4 witness: both halves of the conflict-freeness theorem at concrete
inputs — a successful two-DOF arm tick, and a builder call with two
commands sharing DOF 0. -/
theorem c4_conflict_freeness_witness :
    (([(ControlSpace.ARM,
        (⟨ControlSpace.ARM, CommandKind.JOINT_VELOCITY, [0, 1], [1, 2], "reach"⟩
          : MaskedCommand))].map (fun pr => pr.2.dof_mask)).join).Nodup
    ∧ (build_actuator_targets_v2
        [(ControlSpace.ARM, ⟨ControlSpace.ARM, CommandKind.JOINT_VELOCITY, [0], [1], "reach"⟩),
         (ControlSpace.LEGS, ⟨ControlSpace.LEGS, CommandKind.JOINT_VELOCITY, [0], [2], "walk"⟩)]
        [0, 0] 2 [] ⟨[]⟩ true).ok = false :=
  ⟨c4_conflict_freeness.1
      ⟨some ⟨1, "L", 0, 10, [-5, -5], [5, 5], [5, 5], none, some [("arm", "reach")]⟩,
        none, false, [], 0⟩ 1
      [⟨ControlSpace.ARM, CommandKind.JOINT_VELOCITY, [0, 1], [1, 2], "reach"⟩]
      ⟨true, "OK", [(ControlSpace.ARM,
        ⟨ControlSpace.ARM, CommandKind.JOINT_VELOCITY, [0, 1], [1, 2], "reach"⟩)]⟩
      ⟨some ⟨1, "L", 0, 10, [-5, -5], [5, 5], [5, 5], none, some [("arm", "reach")]⟩,
        none, false,
        [(ControlSpace.ARM,
          ⟨ControlSpace.ARM, CommandKind.JOINT_VELOCITY, [0, 1], [1, 2], "reach"⟩)], 1⟩
      (by decide) (by decide) rfl,
    c4_conflict_freeness.2
      [(ControlSpace.ARM, ⟨ControlSpace.ARM, CommandKind.JOINT_VELOCITY, [0], [1], "reach"⟩),
       (ControlSpace.LEGS, ⟨ControlSpace.LEGS, CommandKind.JOINT_VELOCITY, [0], [2], "walk"⟩)]
      [0, 0] 2 [] ⟨[]⟩ true (by decide)⟩

theorem severity_inj : ∀ a b : SafetyLevel, severity a = severity b → a = b := by
  intro a b h
  cases a <;> cases b <;> simp_all [severity]

theorem worstFrom_cons (w : SafetyLevel) (src : String) (evt : SafetyEvent)
    (t : List (String × SafetyEvent)) :
    worstFrom w ((src, evt) :: t)
      = worstFrom (if severity w < severity evt.level then evt.level else w) t := rfl

theorem le_worstFrom : ∀ (l : List (String × SafetyEvent)) (w : SafetyLevel),
    severity w ≤ severity (worstFrom w l) := by
  intro l
  induction l with
  | nil => intro w; exact le_refl _
  | cons e t ih =>
    intro w
    obtain ⟨src, evt⟩ := e
    rw [worstFrom_cons]
    by_cases h : severity w < severity evt.level
    · rw [if_pos h]
      exact le_of_lt (lt_of_lt_of_le h (ih evt.level))
    · rw [if_neg h]
      exact ih w

theorem tagsAt_cons (lvl : SafetyLevel) (src : String) (evt : SafetyEvent)
    (t : List (String × SafetyEvent)) :
    tagsAt lvl ((src, evt) :: t)
      = (if evt.level = lvl then [src ++ ":" ++ evt.reason] else []) ++ tagsAt lvl t := by
  by_cases h : evt.level = lvl
  · simp [tagsAt, List.filter, h]
  · simp [tagsAt, List.filter, h]

theorem aggAux_char : ∀ (l : List (String × SafetyEvent)) (w : SafetyLevel)
    (rs : List String) (am : List (String × String)),
    (aggAux (w, rs, am) l).1 = worstFrom w l
    ∧ (aggAux (w, rs, am) l).2.1 =
        (if severity w < severity (worstFrom w l) then tagsAt (worstFrom w l) l
         else rs ++ (if w = SafetyLevel.NONE then [] else tagsAt w l)) := by
  intro l
  induction l with
  | nil =>
    intro w rs am
    refine ⟨rfl, ?_⟩
    have hw : worstFrom w [] = w := rfl
    rw [hw, if_neg (lt_irrefl _)]
    simp [aggAux, tagsAt]
  | cons e t ih =>
    intro w rs am
    obtain ⟨src, evt⟩ := e
    simp only [aggAux]
    rw [worstFrom_cons]
    by_cases h1 : severity w < severity evt.level
    · rw [if_pos h1, if_pos h1]
      obtain ⟨ih1, ih2⟩ := ih evt.level [src ++ ":" ++ evt.reason] (amUpd am src evt)
      refine ⟨ih1, ?_⟩
      rw [ih2]
      have hle := le_worstFrom t evt.level
      rcases lt_or_eq_of_le hle with h2 | h2
      · rw [if_pos h2, if_pos (lt_trans h1 h2)]
        rw [tagsAt_cons, if_neg ?_]
        · rfl
        · intro heq
          rw [← heq] at h2
          exact absurd h2 (lt_irrefl _)
      · have hnlt : ¬ severity evt.level < severity (worstFrom evt.level t) := by
          rw [← h2]
          exact lt_irrefl _
        have hWeq : evt.level = worstFrom evt.level t := severity_inj _ _ h2
        have hNN : evt.level ≠ SafetyLevel.NONE := by
          intro hN
          rw [hN] at h1
          exact absurd h1 (by simp [severity])
        rw [if_neg hnlt, if_neg hNN, if_pos (by rw [← h2]; exact h1), tagsAt_cons, if_pos hWeq,
          ← hWeq]
    · rw [if_neg h1, if_neg h1]
      by_cases h2 : severity evt.level = severity w ∧ evt.level ≠ SafetyLevel.NONE
      · rw [if_pos h2]
        have hew : evt.level = w := severity_inj _ _ h2.1
        have hwN : w ≠ SafetyLevel.NONE := hew ▸ h2.2
        obtain ⟨ih1, ih2⟩ := ih w (rs ++ [src ++ ":" ++ evt.reason]) (amUpd am src evt)
        refine ⟨ih1, ?_⟩
        rw [ih2]
        by_cases h3 : severity w < severity (worstFrom w t)
        · rw [if_pos h3, if_pos h3]
          rw [tagsAt_cons, if_neg ?_]
          · rfl
          · intro heq
            have hww : w = worstFrom w t := hew.symm.trans heq
            rw [← hww] at h3
            exact absurd h3 (lt_irrefl _)
        · rw [if_neg h3, if_neg h3, if_neg hwN, if_neg hwN]
          rw [tagsAt_cons, if_pos hew]
          simp
      · rw [if_neg h2]
        obtain ⟨ih1, ih2⟩ := ih w rs (amUpd am src evt)
        refine ⟨ih1, ?_⟩
        rw [ih2]
        have hse : severity evt.level ≤ severity w := le_of_not_lt h1
        by_cases h3 : severity w < severity (worstFrom w t)
        · rw [if_pos h3, if_pos h3]
          rw [tagsAt_cons, if_neg ?_]
          · rfl
          · intro heq
            rw [← heq] at h3
            exact absurd (lt_of_le_of_lt hse h3) (lt_irrefl _)
        · rw [if_neg h3, if_neg h3]
          by_cases hwN : w = SafetyLevel.NONE
          · rw [if_pos hwN, if_pos hwN]
          · rw [if_neg hwN, if_neg hwN]
            rw [tagsAt_cons, if_neg ?_]
            · rfl
            · intro heq
              have hsev : severity evt.level = severity w := by rw [heq]
              refine h2 ⟨hsev, ?_⟩
              intro hN
              exact hwN (by rw [← heq, hN])

/-- C8 (counterexample to the claim as stated): a single monitor at level
NONE. The worst level is NONE and its only source is "a" with reason "x",
so the claim predicts reason "a:x"; the code appends tie reasons only for
levels other than NONE and returns the empty reason. -/
theorem c8_aggregate_claim_counterexample :
    aggregate [("a", ⟨SafetyLevel.NONE, "x", none⟩)]
      = ⟨SafetyLevel.NONE, "", none⟩
    ∧ ("" : String) ≠ "a:x" := by
  constructor
  · rfl
  · decide

/-- C8 (amended): the aggregated level is the maximum input level under
NONE < WARN < STOP < E_STOP; the empty map yields NONE / "no_monitors";
when the worst level is not NONE the reason is the " | "-join of the
"src:reason" tags of exactly the worst-level sources in ascending source
order; amendment forced by the counterexample: when all levels are NONE
(nonempty input) the reason is the empty string, not the join of the
NONE-level sources. -/
theorem c8_aggregate_amended (events : List (String × SafetyEvent))
    (hsorted : events.Pairwise (fun a b => a.1 < b.1)) :
    (aggregate events).level = worstFrom SafetyLevel.NONE events
    ∧ (aggregate events).reason =
        (if events.isEmpty then "no_monitors"
         else if worstFrom SafetyLevel.NONE events = SafetyLevel.NONE then ""
         else String.intercalate " | " (tagsAt (worstFrom SafetyLevel.NONE events) events)) := by
  by_cases hemp : events.isEmpty = true
  · have hnil : events = [] := by
      cases events with
      | nil => rfl
      | cons e t => simp [List.isEmpty] at hemp
    subst hnil
    exact ⟨rfl, rfl⟩
  · unfold aggregate
    rw [if_neg hemp]
    obtain ⟨h1, h2⟩ := aggAux_char events SafetyLevel.NONE [] []
    cases hagg : aggAux (SafetyLevel.NONE, [], []) events with
    | mk w p =>
      obtain ⟨rs, am⟩ := p
      rw [hagg] at h1 h2
      dsimp only at h1 h2 ⊢
      subst h1
      refine ⟨rfl, ?_⟩
      rw [if_neg hemp]
      by_cases hW : worstFrom SafetyLevel.NONE events = SafetyLevel.NONE
      · rw [if_pos hW]
        have hnlt : ¬ severity SafetyLevel.NONE < severity (worstFrom SafetyLevel.NONE events) := by
          rw [hW]
          exact lt_irrefl _
        rw [if_neg hnlt] at h2
        simp only [if_pos rfl, List.nil_append] at h2
        rw [h2]
        rfl
      · rw [if_neg hW]
        have hlt : severity SafetyLevel.NONE < severity (worstFrom SafetyLevel.NONE events) :=
          Nat.lt_of_le_of_ne (Nat.zero_le _) (fun h0 => hW (severity_inj _ _ h0.symm))
        rw [if_pos hlt] at h2
        rw [h2]

/-- C8 witness: the amended aggregation theorem at a concrete two-monitor
map with worst level STOP from source "a". -/
theorem c8_aggregate_amended_witness :
    (aggregate [("a", ⟨SafetyLevel.STOP, "x", none⟩),
        ("b", ⟨SafetyLevel.WARN, "y", none⟩)]).level
      = worstFrom SafetyLevel.NONE [("a", ⟨SafetyLevel.STOP, "x", none⟩),
          ("b", ⟨SafetyLevel.WARN, "y", none⟩)]
    ∧ (aggregate [("a", ⟨SafetyLevel.STOP, "x", none⟩),
        ("b", ⟨SafetyLevel.WARN, "y", none⟩)]).reason =
        (if ([("a", (⟨SafetyLevel.STOP, "x", none⟩ : SafetyEvent)),
            ("b", ⟨SafetyLevel.WARN, "y", none⟩)] : List (String × SafetyEvent)).isEmpty
          then "no_monitors"
         else if worstFrom SafetyLevel.NONE [("a", ⟨SafetyLevel.STOP, "x", none⟩),
            ("b", ⟨SafetyLevel.WARN, "y", none⟩)] = SafetyLevel.NONE then ""
         else String.intercalate " | "
            (tagsAt (worstFrom SafetyLevel.NONE [("a", ⟨SafetyLevel.STOP, "x", none⟩),
              ("b", ⟨SafetyLevel.WARN, "y", none⟩)])
              [("a", ⟨SafetyLevel.STOP, "x", none⟩), ("b", ⟨SafetyLevel.WARN, "y", none⟩)])) :=
  c8_aggregate_amended
    [("a", ⟨SafetyLevel.STOP, "x", none⟩), ("b", ⟨SafetyLevel.WARN, "y", none⟩)]
    (by
      refine List.Pairwise.cons ?_ (List.pairwise_singleton _ _)
      intro b hb
      rw [List.mem_singleton.mp hb]
      rw [String.lt_iff_toList_lt]
      decide)

/-- C9 (counterexample to the claim as stated): STOP event, damping gain
1, velocities of length 1 provided, a space with DOF indices (0, 1): the
index 1 is out of range, yet the injector emits a JOINT_TORQUE command
with values (-1, 0) — the out-of-range DOF falls back to 0.0 inside the
torque command — rather than the claimed hard-stop command of kind
cfg.stop_kind = JOINT_VELOCITY with all-zero values. -/
theorem c9_injector_claim_counterexample :
    safety_injector ⟨SafetyLevel.STOP, "r", none⟩ [(ControlSpace.ARM, [0, 1])]
      ⟨CommandKind.JOINT_VELOCITY, 1, true⟩ (some [1])
      = [⟨ControlSpace.ARM, CommandKind.JOINT_TORQUE, [0, 1], [-1, 0], "safety"⟩]
    ∧ CommandKind.JOINT_TORQUE ≠ CommandKind.JOINT_VELOCITY := by
  constructor
  · norm_num +decide [safety_injector, injectorTargets, useDamping, sdGet, nameToSpace,
      sortedSpaces, List.filter, List.filterMap, spaceValue]
  · decide

/-- C9 (amended): when the gain is positive and a non-empty velocity
vector is provided, every command the injector emits for a STOP or E_STOP
event has kind JOINT_TORQUE and source "safety", with value
`-gain * velocities[idx]` at in-range DOFs and 0.0 at out-of-range DOFs
(still inside the torque command); the hard-stop fallback of kind
cfg.stop_kind applies only when damping is disabled or velocities are
absent or empty. -/
theorem c9_injector_damping (event : SafetyEvent)
    (space_dofs : List (ControlSpace × List Nat)) (cfg : SafetyInjectorConfig)
    (vs : List ℚ)
    (hlvl : event.level = SafetyLevel.STOP ∨ event.level = SafetyLevel.E_STOP)
    (hgain : 0 < cfg.damping_gain) (hvs : vs ≠ []) :
    ∀ cmd ∈ safety_injector event space_dofs cfg (some vs),
      cmd.kind = CommandKind.JOINT_TORQUE ∧ cmd.source = "safety"
      ∧ cmd.values = cmd.dof_mask.map (fun idx =>
          if idx < vs.length then -(cfg.damping_gain * vs.getD idx 0) else 0) := by
  intro cmd hcmd
  unfold safety_injector at hcmd
  rw [if_neg ?_] at hcmd
  · obtain ⟨space, hsp, hf⟩ := List.mem_filterMap.mp hcmd
    have hud : useDamping cfg (some vs) = true := by
      simp only [useDamping, Bool.and_eq_true, decide_eq_true_eq]
      exact ⟨hgain, List.length_pos.mpr hvs⟩
    cases hsd : sdGet space_dofs space with
    | nil =>
      rw [hsd] at hf
      exact Option.noConfusion hf
    | cons d ds =>
      rw [hsd] at hf
      dsimp only at hf
      rw [if_pos hud] at hf
      injection hf with hf
      subst hf
      exact ⟨rfl, rfl, rfl⟩
  · rcases hlvl with h | h <;> rw [h] <;> simp

/-- C9 witness: the amended damping theorem applied to the concrete
torque command the injector emits for a STOP event with gain 1 and a
one-element velocity vector. -/
theorem c9_injector_damping_witness :
    (⟨ControlSpace.ARM, CommandKind.JOINT_TORQUE, [0, 1], [-1, 0], "safety"⟩
        : MaskedCommand).kind = CommandKind.JOINT_TORQUE
    ∧ (⟨ControlSpace.ARM, CommandKind.JOINT_TORQUE, [0, 1], [-1, 0], "safety"⟩
        : MaskedCommand).source = "safety"
    ∧ (⟨ControlSpace.ARM, CommandKind.JOINT_TORQUE, [0, 1], [-1, 0], "safety"⟩
        : MaskedCommand).values
      = (⟨ControlSpace.ARM, CommandKind.JOINT_TORQUE, [0, 1], [-1, 0], "safety"⟩
          : MaskedCommand).dof_mask.map (fun idx =>
          if idx < ([1] : List ℚ).length then -((1 : ℚ) * ([1] : List ℚ).getD idx 0) else 0) :=
  c9_injector_damping ⟨SafetyLevel.STOP, "r", none⟩ [(ControlSpace.ARM, [0, 1])]
    ⟨CommandKind.JOINT_VELOCITY, 1, true⟩ [1] (Or.inl rfl) (by norm_num) (by decide)
    ⟨ControlSpace.ARM, CommandKind.JOINT_TORQUE, [0, 1], [-1, 0], "safety"⟩
    (by norm_num +decide [safety_injector, injectorTargets, useDamping, sdGet, nameToSpace,
      sortedSpaces, List.filter, List.filterMap, spaceValue])

theorem mkRat_millionth : (mkRat 1 1000000 : ℚ) = 1 / 1000000 := by
  norm_num [mkRat, Rat.normalize]

/-- C10: gate totality fails — a code bug. With an envelope whose bound
vectors are empty and a snapshot whose `joints_q` is empty (passing the
DOF-mismatch check, which compares only `joints_q`) but whose `joints_qd`
has one entry, every earlier gate check passes and the velocity loop of
`_state_bounds_ok` indexes `env.qd_abs_max[0]` out of range: the Python
code raises IndexError instead of returning a GateDecision, modelled here
as `gate … = none`. -/
theorem c10_gate_totality_bug :
    gate ⟨0, [], 0, [0], 0, none, 0, [], 0, PerceptionTrust.VALID, 0, Phase.IDLE, 0, "lab_v1"⟩
      ⟨ActionKind.SET_GOAL, 1, none, some ⟨some "reach"⟩, none, none, none⟩
      ⟨"e", "lab", 1, 1, [], [], [], (0, 0, 0), (1, 1, 1), false, false, [], [], none, none⟩
      ⟨0, []⟩ []
      = none
    ∧ state_bounds_ok
        ⟨0, [], 0, [0], 0, none, 0, [], 0, PerceptionTrust.VALID, 0, Phase.IDLE, 0, "lab_v1"⟩
        ⟨"e", "lab", 1, 1, [], [], [], (0, 0, 0), (1, 1, 1), false, false, [], [], none, none⟩
      = none := by
  constructor
  · norm_num +decide [gate, can_apply, snapshot_time_ok, tsMin, tsMax, state_bounds_ok,
      posCheck, velCheck, minQ, maxQ, mkRat_millionth]
  · rfl
